import Mathlib

/-!
# elasticsearch-operator: topology planner and Kibana reconciler

A shallow embedding of `pkg/k8shandler/defaults.go` (the pure derivation
functions `kibanaIndexMode`, `esUnicastHost`, `calculateReplicaCount`) and of
the Kibana reconciliation flow exercised by
`pkg/k8shandler/kibana/kibana_test.go`.

Conventions of the embedding:

* Go's `int` is a 64-bit two's-complement integer.  Values are carried as
  `Int`; every arithmetic operator wraps explicitly through `wrapInt`.
* Go's `string` is carried as a Lean `String`.
* Go's `error` is carried as `Option String`: `none` is the `nil` error and
  `some msg` is an error whose `Error()` text is `msg`.
-/

set_option autoImplicit false

namespace K8sHandler

/-! ## Machine integers -/

/-- Smallest value of Go's `int` on a 64-bit platform. -/
def minInt : Int := -(2 ^ 63)

/-- Largest value of Go's `int` on a 64-bit platform. -/
def maxInt : Int := 2 ^ 63 - 1

/-- Two's-complement wrap-around of a mathematical integer into the range of `int`. -/
def wrapInt (x : Int) : Int := (x + 2 ^ 63) % 2 ^ 64 - 2 ^ 63

/-- Go's `a - b` on `int`. -/
def intSub (a b : Int) : Int := wrapInt (a - b)

/-- Go's `a / b` on `int` for a non-zero divisor: the quotient is truncated toward zero. -/
def intDiv (a b : Int) : Int := wrapInt (Int.tdiv a b)

/-! ## Formatting (`fmt`) -/

/-- The fragment of `fmt.Sprintf` used by `defaults.go`, over string operands:
`%v` and `%s` print the next operand verbatim, `%%` prints a percent sign and
every other character is copied.  The result is `none` when the format leaves
this fragment (another verb, a flag, a missing or a surplus operand). -/
def sprintfChars : List Char → List String → Option (List Char)
  | [], [] => some []
  | [], _ :: _ => none
  | c :: fs, args =>
    if c = '%' then
      match fs, args with
      | d :: fs', a :: args' =>
        if d = 'v' ∨ d = 's' then (sprintfChars fs' args').map (fun r => a.data ++ r)
        else if d = '%' then (sprintfChars fs' (a :: args')).map (fun r => '%' :: r)
        else none
      | d :: fs', [] =>
        if d = '%' then (sprintfChars fs' []).map (fun r => '%' :: r) else none
      | [], _ => none
    else (sprintfChars fs args).map (fun r => c :: r)

/-- The embedding of `fmt.Sprintf(format, args...)` for string operands. -/
def Sprintf (format : String) (args : List String) : Option String :=
  (sprintfChars format.data args).map String.mk

/-- The embedding of `fmt.Errorf(format, args...)`: a non-nil error whose text is the
formatted string. -/
def Errorf (format : String) (args : List String) : Option String :=
  some ((Sprintf format args).getD "")

/-! ## `defaults.go` -/

def modeUnique : String := "unique"

def modeSharedOps : String := "shared_ops"

def defaultMode : String := modeSharedOps

/-- The embedding of `kibanaIndexMode(mode string) (string, error)`. -/
def kibanaIndexMode (mode : String) : String × Option String :=
  if mode = "" then (defaultMode, none)
  else if mode = modeUnique ∨ mode = modeSharedOps then (mode, none)
  else ("", Errorf "invalid kibana index mode provided [%s]" [mode])

/-- The embedding of `esUnicastHost(clusterName, namespace string) string`. -/
def esUnicastHost (clusterName ns : String) : String :=
  (Sprintf "%v-cluster.%v.svc" [clusterName, ns]).getD ""

/-- The four `v1alpha1.RedundancyPolicyType` constants named by the `switch` of
`calculateReplicaCount`.  Their declaration (package `v1alpha1`) is not part of the
sources at hand, so their string values are a parameter of the embedding. -/
structure RedundancyPolicyNames where
  FullRedundancy : String
  MultipleRedundancy : String
  SingleRedundancy : String
  ZeroRedundancy : String
deriving DecidableEq, Repr

/-- The four policy constants are pairwise different strings.  Go guarantees this for
the constants of `calculateReplicaCount`: a `switch` with two equal constant cases
does not compile. -/
def RedundancyPolicyNames.Distinct (c : RedundancyPolicyNames) : Prop :=
  c.FullRedundancy ≠ c.MultipleRedundancy ∧ c.FullRedundancy ≠ c.SingleRedundancy ∧
  c.FullRedundancy ≠ c.ZeroRedundancy ∧ c.MultipleRedundancy ≠ c.SingleRedundancy ∧
  c.MultipleRedundancy ≠ c.ZeroRedundancy ∧ c.SingleRedundancy ≠ c.ZeroRedundancy

instance (c : RedundancyPolicyNames) : Decidable c.Distinct := by
  unfold RedundancyPolicyNames.Distinct; infer_instance

/-- The policy constants as the operator's API package spells them; used to evaluate
the planner on concrete inputs. -/
def apiPolicyNames : RedundancyPolicyNames :=
  { FullRedundancy := "FullRedundancy"
    MultipleRedundancy := "MultipleRedundancy"
    SingleRedundancy := "SingleRedundancy"
    ZeroRedundancy := "ZeroRedundancy" }

/-- The embedding of `calculateReplicaCount(dpl)`.  The function reads two values from
`dpl`: `dataNodeCount = int(getDataCount(dpl))` and `repType = dpl.Spec.RedundancyPolicy`;
they are the arguments here (`getDataCount` is not part of the sources at hand).  The
`switch` tries its cases in source order. -/
def calculateReplicaCount (c : RedundancyPolicyNames) (dataNodeCount : Int)
    (repType : String) : Int :=
  if repType = c.FullRedundancy then intSub dataNodeCount 1
  else if repType = c.MultipleRedundancy then intDiv (intSub dataNodeCount 1) 2
  else if repType = c.SingleRedundancy then 1
  else if repType = c.ZeroRedundancy then 0
  else 1

/-! ## Kibana reconciliation (`pkg/k8shandler/kibana`) -/

namespace KibanaReconciler

/-! ### Object store -/

/-- Modelled from the spec: the kinds of object the reconciler reads or writes (§3, §6):
the desired-state object, config objects, credential objects, the workload,
access-control roles and bindings, and linkage records.  The store implementation is
an external collaborator and not part of the sources at hand. -/
inductive Kind where
  | Kibana
  | ConfigMap
  | Secret
  | Deployment
  | Role
  | RoleBinding
  | ConsoleLink
deriving DecidableEq, Repr

/-- Modelled from the spec: the store is keyed by kind, namespace and name (§6).
Cluster-scoped objects carry the empty namespace. -/
structure ObjectKey where
  kind : Kind
  Namespace : String
  Name : String
deriving DecidableEq, Repr

/-- Modelled from the spec: a stored object, reduced to what the reconciler reasons
about: its key, its owner references, its labels, its annotations (for the workload:
the pod-template annotations), its payload (`data`) and the metadata that the store or
other controllers own (`foreign`). -/
structure Object where
  key : ObjectKey
  owners : List ObjectKey
  labels : List (String × String)
  annotations : List (String × String)
  data : List (String × String)
  foreign : List (String × String)
deriving DecidableEq, Repr

/-- Modelled from the spec: the two store failures the reconciler distinguishes (§6). -/
inductive StoreError where
  | NotFound
  | AlreadyExists
deriving DecidableEq, Repr

/-- Modelled from the spec: the persistent object store (§1, §6), as the list of objects
it holds together with the number of mutating requests it has applied. -/
structure Store where
  objects : List Object
  writes : Nat
deriving DecidableEq, Repr

/-- Modelled from the spec: `get(kind, namespace, name) -> Object | NotFound` (§6);
`none` is NotFound. -/
def Store.get (s : Store) (k : ObjectKey) : Option Object :=
  s.objects.find? (fun o => decide (o.key = k))

/-- Modelled from the spec: `create(Object) -> Result` (§6); creating over an existing
key is refused. -/
def Store.create (s : Store) (o : Object) : Except StoreError Store :=
  match s.get o.key with
  | some _ => .error .AlreadyExists
  | none => .ok { objects := s.objects ++ [o], writes := s.writes + 1 }

/-- Modelled from the spec: `update(Object) -> Result` (§6); the object stored under the
key is replaced, and updating an absent key is refused. -/
def Store.update (s : Store) (o : Object) : Except StoreError Store :=
  match s.get o.key with
  | none => .error .NotFound
  | some _ =>
    .ok { objects := s.objects.map (fun x => if x.key = o.key then o else x)
          writes := s.writes + 1 }

/-- Modelled from the spec: `delete(kind, namespace, name) -> Result | NotFound` (§6). -/
def Store.delete (s : Store) (k : ObjectKey) : Except StoreError Store :=
  match s.get k with
  | none => .error .NotFound
  | some _ =>
    .ok { objects := s.objects.filter (fun x => decide (x.key ≠ k))
          writes := s.writes + 1 }

/-! ### Inputs of a reconciliation -/

/-- The desired-state object `loggingv1.Kibana`, with the fields that
`kibana_test.go` sets (lines 32-41). -/
structure Kibana where
  Name : String
  Namespace : String
  ManagementState : String
  Replicas : Nat
deriving DecidableEq, Repr

/-- The cluster proxy configuration `configv1.Proxy`, with the field that
`kibana_test.go` sets (lines 70-76): the name of the trusted-CA config map. -/
structure Proxy where
  TrustedCA : String
deriving DecidableEq, Repr

/-- Modelled from the spec: the name and the payload of a managed resource whose shape
the spec leaves open (§4.2 step 3 names the kinds "config object", "credential
objects" and "access-control binding" without describing them). -/
structure Manifest where
  Name : String
  data : List (String × String)
deriving DecidableEq, Repr

/-- The named constants of packages `constants` and `kibana` that `kibana_test.go`
refers to, the digest behind `calcTrustedCAHashValue`, and what the spec leaves open
about the reconciler: how a custom trust source combines with the default bundle
("merged with/overrides", §4.2 step 2) and the shapes of the config object, the
credential objects and the access-control binding that it converges (§4.2 step 3).
Their declarations are not part of the sources at hand, so they are parameters of the
embedding. -/
structure Env where
  KibanaTrustedCAName : String
  TrustedCABundleKey : String
  InjectTrustedCABundleLabel : String
  TrustedCABundleHashName : String
  KibanaInstanceName : String
  AppLogsConsoleLinkName : String
  InfraLogsConsoleLinkName : String
  digest : String → String
  mergeTrust : String → String → String
  configObject : Kibana → Manifest
  credentialObjects : Kibana → List Manifest
  accessBinding : Kibana → Manifest

/-- Modelled from the spec: the failures a reconciliation reports (§7).  A missing
dependency names the absent object; a store write failure names the object and the
store's answer. -/
inductive ReconcileError where
  | DependencyMissing (key : ObjectKey)
  | StoreWriteFailure (key : ObjectKey) (cause : StoreError)
deriving DecidableEq, Repr

/-! ### Well-known keys -/

/-- Key under which the store holds the desired-state object. -/
def kibanaKey (cluster : Kibana) : ObjectKey :=
  ⟨.Kibana, cluster.Namespace, cluster.Name⟩

/-- Key of a credential object of the desired-state object's namespace
(`kibana_test.go` lines 58-69 name them "kibana" and "kibana-proxy"). -/
def secretKey (cluster : Kibana) (name : String) : ObjectKey :=
  ⟨.Secret, cluster.Namespace, name⟩

/-- Key of the trust bundle of the desired-state object's namespace
(`kibana_test.go` lines 42-57 and 278). -/
def trustBundleKey (env : Env) (cluster : Kibana) : ObjectKey :=
  ⟨.ConfigMap, cluster.Namespace, env.KibanaTrustedCAName⟩

/-- Key of the workload (`kibana_test.go` lines 284 and 307). -/
def deploymentKey (env : Env) (cluster : Kibana) : ObjectKey :=
  ⟨.Deployment, cluster.Namespace, env.KibanaInstanceName⟩

/-- Key of a linkage record; console links are cluster-scoped
(`kibana_test.go` lines 134 and 141). -/
def consoleLinkKey (name : String) : ObjectKey :=
  ⟨.ConsoleLink, "", name⟩

/-- Key of the deprecated config object (`kibana_test.go` line 216). -/
def sharingConfigKey (cluster : Kibana) : ObjectKey :=
  ⟨.ConfigMap, cluster.Namespace, "sharing-config"⟩

/-- Key of the deprecated role (`kibana_test.go` line 221). -/
def sharingConfigReaderKey (cluster : Kibana) : ObjectKey :=
  ⟨.Role, cluster.Namespace, "sharing-config-reader"⟩

/-- Key of the deprecated role binding (`kibana_test.go` line 226). -/
def sharingConfigReaderBindingKey (cluster : Kibana) : ObjectKey :=
  ⟨.RoleBinding, cluster.Namespace, "openshift-logging-sharing-config-reader-binding"⟩

/-- Modelled from the spec: key of the custom trust source that a cluster proxy
configuration references by name: a namespace-scoped trust bundle (§6), looked up in
the namespace of the desired-state object. -/
def customTrustKey (cluster : Kibana) (p : Proxy) : ObjectKey :=
  ⟨.ConfigMap, cluster.Namespace, p.TrustedCA⟩

/-! ### The reconciliation algorithm -/

/-- The outcome of a reconciliation step: the store as the step leaves it and the
error it reports, if any.  Writes made before a failure stay in the store. -/
abbrev Outcome := Store × Option ReconcileError

/-- Modelled from the spec: steps run in order.  A store write failure ends the
invocation and leaves earlier writes as they are ("fail fast on first error", §4.2
step 5, §7).  A missing dependency skips only the step that needs it: the later steps
still run and the condition is reported when the invocation ends (§7
`DependencyMissing`: "reconciliation for that resource is skipped for this
invocation"). -/
def andThen (first next : Store → Outcome) (s : Store) : Outcome :=
  match first s with
  | (s', none) => next s'
  | (s', some (.DependencyMissing k)) => ((next s').1, some (.DependencyMissing k))
  | (s', some (.StoreWriteFailure k cause)) => (s', some (.StoreWriteFailure k cause))

/-- Modelled from the spec: a required object that is absent is a `DependencyMissing`
condition (§7). -/
def requirePresent (s : Store) (k : ObjectKey) : Option ReconcileError :=
  match s.get k with
  | some _ => none
  | none => some (.DependencyMissing k)

/-- Modelled from the spec: the read phase (§4.2 step 1) fetches the desired-state
object; its absence is reported. -/
def readPhase (cluster : Kibana) (s : Store) : Option ReconcileError :=
  requirePresent s (kibanaKey cluster)

/-- Modelled from the spec: the credential objects that are expected to pre-exist (§7),
under the names `kibana_test.go` seeds (lines 58-69); the first one that is absent is
reported. -/
def missingCredential (cluster : Kibana) (s : Store) : Option ReconcileError :=
  match requirePresent s (secretKey cluster "kibana") with
  | some e => some e
  | none => requirePresent s (secretKey cluster "kibana-proxy")

/-- The certificate payload of a trust bundle: the entry of its data under
`constants.TrustedCABundleKey` (`kibana_test.go` lines 50-56 and 301); absent means
empty. -/
def trustPayload (env : Env) (bundle : Object) : String :=
  match bundle.data.lookup env.TrustedCABundleKey with
  | some pem => pem
  | none => ""

/-- Modelled from the spec: the fingerprint of a trust bundle is a deterministic digest
of its certificate payload and of nothing else (§3, §4.2 step 2).  The body of
`calcTrustedCAHashValue` is not part of the sources at hand. -/
def calcTrustedCAHashValue (env : Env) (bundle : Object) : String :=
  env.digest (trustPayload env bundle)

/-- Modelled from the spec: the custom trust source of an invocation (§4.2 step 2, §6):
the object that the cluster proxy configuration references, when there is a proxy
configuration and the object can be read; otherwise none ("errors reading the bundle
degrade to no custom trust"). -/
def customTrustSource (cluster : Kibana) (proxy : Option Proxy) (s : Store) : Option Object :=
  match proxy with
  | none => none
  | some p => s.get (customTrustKey cluster p)

/-- Modelled from the spec: the keys an invocation reads trust material from: the trust
bundle of the namespace and, with a proxy configuration, the custom trust source. -/
def trustKeys (env : Env) (cluster : Kibana) (proxy : Option Proxy) : List ObjectKey :=
  match proxy with
  | none => [trustBundleKey env cluster]
  | some p => [trustBundleKey env cluster, customTrustKey cluster p]

/-- Modelled from the spec: trust-material hashing (§4.2 step 2).  The bundle of the
namespace is read; a readable custom trust source is merged with it (or overrides it:
`Env.mergeTrust`), and the result is fingerprinted.  Without a custom trust source the
fingerprint is the one of the bundle.  A missing bundle degrades to "no custom trust"
(the fingerprint of the empty payload), unless a cluster proxy configuration makes the
bundle required, in which case the dependency is reported missing. -/
def trustFingerprint (env : Env) (cluster : Kibana) (proxy : Option Proxy) (s : Store) :
    Except ReconcileError String :=
  match s.get (trustBundleKey env cluster) with
  | some bundle =>
    match customTrustSource cluster proxy s with
    | none => .ok (calcTrustedCAHashValue env bundle)
    | some custom =>
      .ok (env.digest (env.mergeTrust (trustPayload env bundle) (trustPayload env custom)))
  | none =>
    match proxy with
    | none => .ok (env.digest "")
    | some _ => .error (.DependencyMissing (trustBundleKey env cluster))

/-- Modelled from the spec: the desired representation of a managed resource of the
given kind (§4.2 step 3): in the namespace of the desired-state object, owned by it
(§3 Ownership), with the name and the payload of its manifest. -/
def newManaged (kind : Kind) (cluster : Kibana) (m : Manifest) : Object :=
  { key := ⟨kind, cluster.Namespace, m.Name⟩
    owners := [kibanaKey cluster]
    labels := []
    annotations := []
    data := m.data
    foreign := [] }

/-- Modelled from the spec: the desired workload (§3 ManagedWorkload): owned by the
desired-state object, its pod template annotated with the current fingerprint, sized
by the requested replica count. -/
def newDeployment (env : Env) (cluster : Kibana) (fingerprint : String) : Object :=
  { key := deploymentKey env cluster
    owners := [kibanaKey cluster]
    labels := []
    annotations := [(env.TrustedCABundleHashName, fingerprint)]
    data := [("replicas", toString cluster.Replicas)]
    foreign := [] }

/-- Modelled from the spec: a desired linkage record (§3 LinkageRecord, §6): a fixed
name, an owner reference to the desired-state object, a link target and a placement
category.  The field values are the ones `kibana_test.go` expects (lines 83-119). -/
def newConsoleLink (cluster : Kibana) (name : String) : Object :=
  { key := consoleLinkKey name
    owners := [kibanaKey cluster]
    labels := []
    annotations := []
    data := [("location", "ApplicationMenu"), ("text", "Logging"), ("href", "https://"),
             ("section", "Monitoring")]
    foreign := [] }

/-- Modelled from the spec: the managed resources that §4.2 step 3 lists before the
workload: the config object, then the credential objects. -/
def desiredBeforeWorkload (env : Env) (cluster : Kibana) : List Object :=
  newManaged .ConfigMap cluster (env.configObject cluster) ::
    (env.credentialObjects cluster).map (newManaged .Secret cluster)

/-- Modelled from the spec: the managed resources that §4.2 step 3 lists after the
workload: the access-control binding, then the two linkage records. -/
def desiredAfterWorkload (env : Env) (cluster : Kibana) : List Object :=
  [newManaged .RoleBinding cluster (env.accessBinding cluster),
   newConsoleLink cluster env.AppLogsConsoleLinkName,
   newConsoleLink cluster env.InfraLogsConsoleLinkName]

/-- Modelled from the spec: convergence of one managed resource (§4.2 step 3): absent is
created; present and equal in the fields this core owns is left alone; present and
different is updated in place, keeping the fields other parties own. -/
def converge (want : Object) (s : Store) : Outcome :=
  match s.get want.key with
  | none =>
    match s.create want with
    | .ok s' => (s', none)
    | .error cause => (s, some (.StoreWriteFailure want.key cause))
  | some cur =>
    if cur.owners = want.owners ∧ cur.annotations = want.annotations ∧ cur.data = want.data
    then (s, none)
    else
      match s.update { cur with owners := want.owners, annotations := want.annotations,
                                data := want.data } with
      | .ok s' => (s', none)
      | .error cause => (s, some (.StoreWriteFailure want.key cause))

/-- Modelled from the spec: convergence of a list of managed resources, one after the
other (§4.2 step 3, "for each managed resource kind"). -/
def convergeAll : List Object → Store → Outcome
  | [], s => (s, none)
  | want :: rest, s => andThen (converge want) (convergeAll rest) s

/-- Modelled from the spec: convergence of the workload (§4.2 step 3).  The workload
embeds the fingerprint of step 2 and needs the credential objects that are expected to
pre-exist; when the fingerprint could not be computed or a credential object is
absent, the workload is skipped and the missing dependency is reported (§4.2 step 2,
§7). -/
def convergeWorkload (env : Env) (cluster : Kibana) (fingerprint : Except ReconcileError String)
    (s : Store) : Outcome :=
  match fingerprint with
  | .error e => (s, some e)
  | .ok fp =>
    match missingCredential cluster s with
    | some e => (s, some e)
    | none => converge (newDeployment env cluster fp) s

/-- Modelled from the spec: the store that step 3 leaves when every managed resource
could be converged, for the fingerprint of step 2 (§4.2 step 3). -/
def convergedStore (env : Env) (cluster : Kibana) (fingerprint : String) (s : Store) : Store :=
  (convergeAll (desiredAfterWorkload env cluster)
    (converge (newDeployment env cluster fingerprint)
      (convergeAll (desiredBeforeWorkload env cluster) s).1).1).1

/-- Modelled from the spec: deletion during cleanup treats "already absent" as success
(§4.2 step 4, §6); any other store failure is a `StoreWriteFailure`. -/
def deleteIfPresent (k : ObjectKey) (s : Store) : Outcome :=
  match s.delete k with
  | .ok s' => (s', none)
  | .error .NotFound => (s, none)
  | .error cause => (s, some (.StoreWriteFailure k cause))

/-- Modelled from the spec: deprecated-generation cleanup (§4.2 step 4): deletion of the
superseded config object, role and role binding is attempted unconditionally, by fixed
name, in the namespace of the desired-state object. -/
def removeDeprecated (cluster : Kibana) : Store → Outcome :=
  andThen (deleteIfPresent (sharingConfigKey cluster))
    (andThen (deleteIfPresent (sharingConfigReaderKey cluster))
      (deleteIfPresent (sharingConfigReaderBindingKey cluster)))

/-- Modelled from the spec: `reconcile(desiredState, storeHandle, clusterProxyConfig)`
(§4.2).  Step 1 fetches the desired-state object; without it there is nothing to
reconcile against.  Step 2 computes the trust fingerprint from the store as the
invocation finds it.  Step 3 converges the managed resources in the order the spec
lists them: the config object, the credential objects, the workload, the
access-control binding, the linkage records.  Step 4 removes the deprecated
generation.  Step 5: the invocation succeeds only if every step did.
`ReconcileKibana` itself is not part of the sources at hand (only its test is). -/
def ReconcileKibana (env : Env) (cluster : Kibana) (client : Store) (proxy : Option Proxy) :
    Outcome :=
  match readPhase cluster client with
  | some e => (client, some e)
  | none =>
    andThen (convergeAll (desiredBeforeWorkload env cluster))
      (andThen (convergeWorkload env cluster (trustFingerprint env cluster proxy client))
        (andThen (convergeAll (desiredAfterWorkload env cluster))
          (removeDeprecated cluster))) client

/-- The objects a reconciliation needs in the store: the desired-state object, the two
credential objects and the trust bundle. -/
def Required (env : Env) (cluster : Kibana) (s : Store) : Prop :=
  (s.get (kibanaKey cluster)).isSome ∧ (s.get (secretKey cluster "kibana")).isSome ∧
  (s.get (secretKey cluster "kibana-proxy")).isSome ∧
  (s.get (trustBundleKey env cluster)).isSome

instance (env : Env) (cluster : Kibana) (s : Store) : Decidable (Required env cluster s) := by
  unfold Required; infer_instance

/-- Modelled from the spec: the names the reconciler works with keep apart.  Trust
material is only read, never written or removed by this core (§3 TrustBundle: "it never
mutates the bundle"); the deprecated generation is never produced by the current
logic (§6); and each managed resource has its own fixed name (§6), so credential
objects of one name are one object. -/
def NamesApart (env : Env) (cluster : Kibana) (proxy : Option Proxy) : Prop :=
  (∀ k ∈ trustKeys env cluster proxy,
    k ≠ sharingConfigKey cluster ∧
    k ≠ (newManaged .ConfigMap cluster (env.configObject cluster)).key) ∧
  (newManaged .ConfigMap cluster (env.configObject cluster)).key ≠ sharingConfigKey cluster ∧
  (newManaged .RoleBinding cluster (env.accessBinding cluster)).key
    ≠ sharingConfigReaderBindingKey cluster ∧
  (∀ a ∈ env.credentialObjects cluster, ∀ b ∈ env.credentialObjects cluster,
    a.Name = b.Name → a = b)

instance (env : Env) (cluster : Kibana) (proxy : Option Proxy) :
    Decidable (NamesApart env cluster proxy) := by
  unfold NamesApart; infer_instance

/-! ### Fixtures of `kibana_test.go` -/

/-- Sample values for the parameters of the embedding, used to evaluate the reconciler
on the fixtures of the test: names for the constants, a digest that tags the payload, a
merge that appends the custom trust source to the bundle, and one config object, one
credential object and one access-control binding. -/
def sampleEnv : Env :=
  { KibanaTrustedCAName := "kibana-trusted-ca-bundle"
    TrustedCABundleKey := "ca-bundle.crt"
    InjectTrustedCABundleLabel := "config.openshift.io/inject-trusted-cabundle"
    TrustedCABundleHashName := "logging.openshift.io/hash"
    KibanaInstanceName := "kibana"
    AppLogsConsoleLinkName := "kibana-app-logs"
    InfraLogsConsoleLinkName := "kibana-infra-logs"
    digest := fun payload => "digest:" ++ payload
    mergeTrust := fun bundle custom => bundle ++ custom
    configObject := fun c => { Name := "kibana-config", data := [("replicas", toString c.Replicas)] }
    credentialObjects := fun _ => [{ Name := "kibana-session", data := [] }]
    accessBinding := fun c => { Name := "kibana-access", data := [("subject", c.Name)] } }

/-- The sample parameters with a fixed-size digest: the first 32 characters of the
payload. -/
def prefixEnv : Env :=
  { sampleEnv with digest := fun payload => String.mk (payload.data.take 32) }

/-- The fixture `cluster` (lines 32-41). -/
def cluster : Kibana :=
  { Name := "kibana", Namespace := "test-namespace", ManagementState := "Managed",
    Replicas := 2 }

/-- The certificate payload of the fixture `kibanaCABundle`: the raw string literal of
lines 51-55, byte for byte. -/
def kibanaCABundleData : String :=
      "\n" ++
      "                  -----BEGIN CERTIFICATE-----\n" ++
      "                  <PEM_ENCODED_CERT>\n" ++
      "                  -----END CERTIFICATE-------\n" ++
      "                "

/-- The fixture `kibanaCABundle` (lines 42-57). -/
def kibanaCABundle (env : Env) : Object :=
  { key := ⟨.ConfigMap, cluster.Namespace, env.KibanaTrustedCAName⟩
    owners := []
    labels := [(env.InjectTrustedCABundleLabel, "true")]
    annotations := []
    data := [(env.TrustedCABundleKey, kibanaCABundleData)]
    foreign := [] }

/-- An object that carries nothing but its key. -/
def bareObject (k : ObjectKey) : Object :=
  { key := k, owners := [], labels := [], annotations := [], data := [], foreign := [] }

/-- The store object of the fixture `cluster`. -/
def clusterObject : Object :=
  { bareObject (kibanaKey cluster) with
    data := [("managementState", cluster.ManagementState),
             ("replicas", toString cluster.Replicas)] }

/-- The fixture `kibanaSecret` (lines 58-63). -/
def kibanaSecret : Object := bareObject ⟨.Secret, cluster.Namespace, "kibana"⟩

/-- The fixture `kibanaProxySecret` (lines 64-69). -/
def kibanaProxySecret : Object := bareObject ⟨.Secret, cluster.Namespace, "kibana-proxy"⟩

/-- The fixture `proxy` (lines 70-76). -/
def proxy : Proxy := { TrustedCA := "custom-ca-bundle" }

/-- The fixture `sharingConfigMap` (lines 152-159). -/
def sharingConfigMap : Object :=
  { bareObject ⟨.ConfigMap, cluster.Namespace, "sharing-config"⟩ with
    data := [("kibanaAppURL", "https://"), ("kibanaInfraURL", "https://")] }

/-- The fixture `sharingConfigReader` (lines 160-171). -/
def sharingConfigReader : Object :=
  { bareObject ⟨.Role, cluster.Namespace, "sharing-config-reader"⟩ with
    data := [("apiGroups", ""), ("resources", "configmaps"),
             ("resourceNames", "sharing-config"), ("verbs", "get")] }

/-- The fixture `sharingConfigReaderBinding` (lines 172-182). -/
def sharingConfigReaderBinding : Object :=
  { bareObject ⟨.RoleBinding, cluster.Namespace,
      "openshift-logging-sharing-config-reader-binding"⟩ with
    data := [("roleRef", "sharing-config-reader"), ("subject.kind", "Group"),
             ("subject.name", "system:authenticated")] }

/-- The fixtures `consoleAppLogsLink` and `consoleInfraLogsLink` (lines 83-118), by name. -/
def consoleLogsLink (name : String) : Object :=
  { key := ⟨.ConsoleLink, "", name⟩
    owners := [kibanaKey cluster]
    labels := []
    annotations := []
    data := [("location", "ApplicationMenu"), ("text", "Logging"), ("href", "https://"),
             ("section", "Monitoring")]
    foreign := [] }

/-- The fake client of "when creating Kibana for the first time on a new cluster"
(lines 122-129). -/
def freshClient (env : Env) : Store :=
  { objects := [clusterObject, kibanaCABundle env, kibanaSecret, kibanaProxySecret]
    writes := 0 }

/-- The fake client of "when updating kibana on an existing cluster" (lines 185-197). -/
def existingClient (env : Env) : Store :=
  { objects := [clusterObject, kibanaCABundle env, kibanaSecret, kibanaProxySecret,
      sharingConfigMap, sharingConfigReader, sharingConfigReaderBinding,
      consoleLogsLink env.AppLogsConsoleLinkName, consoleLogsLink env.InfraLogsConsoleLinkName]
    writes := 0 }

/-! ### Observations on the store -/

/-- Modelled from the spec: all objects the store holds under a key, in store order;
"exactly one record per purpose" (§3, §8) is a one-element list. -/
def Store.list (s : Store) (k : ObjectKey) : List Object :=
  s.objects.filter (fun o => decide (o.key = k))

/-- Modelled from the spec: the state "Converged" of a managed resource (§4.2, state
machine view): the object is present and equals the desired representation in the
fields this core owns. -/
def Converged (s : Store) (want : Object) : Prop :=
  ∃ cur, s.get want.key = some cur ∧ cur.owners = want.owners ∧
    cur.annotations = want.annotations ∧ cur.data = want.data

/-- The annotation that `kibana_test.go` reads back (lines 284-289 and 307-312):
`dpl.Spec.Template.ObjectMeta.Annotations[constants.TrustedCABundleHashName]` of the
deployment stored under `constants.KibanaInstanceName`; `none` when the deployment or
the annotation is absent. -/
def trustedCABundleHash (env : Env) (cluster : Kibana) (s : Store) : Option String :=
  match s.get (deploymentKey env cluster) with
  | none => none
  | some dpl => dpl.annotations.lookup env.TrustedCABundleHashName

/-- The fixture `customCABundle`: the raw string literal of lines 234-241, byte for
byte. -/
def customCABundle : String :=
      "\n" ++
      "                  -----BEGIN CERTIFICATE-----\n" ++
      "                  <PEM_ENCODED_CERT1>\n" ++
      "                  -----END CERTIFICATE-------\n" ++
      "                  -----BEGIN CERTIFICATE-----\n" ++
      "                  <PEM_ENCODED_CERT2>\n" ++
      "                  -----END CERTIFICATE-------\n" ++
      "                "

/-- The object `injectedCABundle` (lines 300-301): a copy of `kibanaCABundle` whose
certificate payload is `customCABundle`. -/
def injectedCABundle (env : Env) : Object :=
  { kibanaCABundle env with data := [(env.TrustedCABundleKey, customCABundle)] }

/-- The store after `client.Update(injectedCABundle)` (line 302) on the store that the
first reconciliation of the fresh client leaves. -/
def injectedClient (env : Env) : Store :=
  match (ReconcileKibana env cluster (freshClient env) (some proxy)).1.update
      (injectedCABundle env) with
  | .ok s => s
  | .error _ => (ReconcileKibana env cluster (freshClient env) (some proxy)).1

/-- A custom trust source under the name that the fixture `proxy` references, carrying
`customCABundle`. -/
def customTrustBundle (env : Env) : Object :=
  { bareObject (customTrustKey cluster proxy) with
    data := [(env.TrustedCABundleKey, customCABundle)] }

/-- The fresh client with the custom trust source in the namespace. -/
def customSourceClient (env : Env) : Store :=
  { objects := (freshClient env).objects ++ [customTrustBundle env], writes := 0 }

end KibanaReconciler

end K8sHandler

/-! # Theorems -/

namespace K8sHandler

/-! ## Machine integers -/

theorem wrapInt_of_range (x : Int) (hlo : minInt ≤ x) (hhi : x ≤ maxInt) : wrapInt x = x := by
  unfold wrapInt
  unfold minInt at hlo
  unfold maxInt at hhi
  norm_num at hlo hhi ⊢
  omega

theorem intSub_one (n : Int) (hlo : minInt < n) (hhi : n ≤ maxInt) : intSub n 1 = n - 1 := by
  unfold intSub
  apply wrapInt_of_range
  · unfold minInt at *; omega
  · unfold maxInt at *; omega

theorem tdiv_two_of_neg (x : Int) (hx : x < 0) : Int.tdiv x 2 = -((-x) / 2) := by
  have h : x = -(-x) := by omega
  rw [h, Int.neg_tdiv, Int.tdiv_eq_ediv (by omega) (by decide)]
  simp

theorem intDiv_two (x : Int) (hlo : minInt ≤ x) (hhi : x ≤ maxInt) :
    intDiv x 2 = Int.tdiv x 2 := by
  unfold intDiv
  apply wrapInt_of_range <;> unfold minInt maxInt at * <;>
    rcases lt_or_le x 0 with hx | hx
  · rw [tdiv_two_of_neg x hx]; omega
  · rw [Int.tdiv_eq_ediv hx (by decide)]; omega
  · rw [tdiv_two_of_neg x hx]; omega
  · rw [Int.tdiv_eq_ediv hx (by decide)]; omega

/-! ## Formatting -/

theorem sprintf_unicast (clusterName ns : String) :
    Sprintf "%v-cluster.%v.svc" [clusterName, ns]
      = some (clusterName ++ "-cluster." ++ ns ++ ".svc") := by
  simp only [Sprintf, Option.map_eq_some']
  refine ⟨(clusterName ++ "-cluster." ++ ns ++ ".svc").data, ?_, rfl⟩
  simp [sprintfChars, String.data_append]

theorem errorf_index_mode (mode : String) :
    Errorf "invalid kibana index mode provided [%s]" [mode]
      = some ("invalid kibana index mode provided [" ++ mode ++ "]") := by
  have h : Sprintf "invalid kibana index mode provided [%s]" [mode]
      = some ("invalid kibana index mode provided [" ++ mode ++ "]") := by
    simp only [Sprintf, Option.map_eq_some']
    refine ⟨("invalid kibana index mode provided [" ++ mode ++ "]").data, ?_, rfl⟩
    simp [sprintfChars, String.data_append]
  simp [Errorf, h]

/-! ## Replica count -/

theorem replica_multiple_eq (c : RedundancyPolicyNames) (n : Int) (hd : c.Distinct)
    (hlo : minInt < n) (hhi : n ≤ maxInt) :
    calculateReplicaCount c n c.MultipleRedundancy = Int.tdiv (n - 1) 2 := by
  have hne : c.MultipleRedundancy ≠ c.FullRedundancy := fun h => hd.1 h.symm
  unfold calculateReplicaCount
  rw [if_neg hne, if_pos rfl, intSub_one n hlo hhi]
  apply intDiv_two <;> unfold minInt maxInt at * <;> omega

theorem small_in_range (n : Int) (h0 : 0 ≤ n) (h1 : n ≤ 5) : minInt < n ∧ n ≤ maxInt := by
  unfold minInt maxInt; omega

/-- C1. With the Full policy the replica count is exactly the data-node count minus
one, for every data-node count `n` whose predecessor is an `int` (every `int` but the
smallest); nothing is clamped: 4 data nodes give 3 and 0 data nodes give -1. -/
theorem calculateReplicaCount_full (c : RedundancyPolicyNames) (n : Int)
    (hlo : minInt < n) (hhi : n ≤ maxInt) :
    calculateReplicaCount c n c.FullRedundancy = n - 1 ∧
    calculateReplicaCount c 4 c.FullRedundancy = 3 ∧
    calculateReplicaCount c 0 c.FullRedundancy = -1 := by
  have key : ∀ m : Int, minInt < m → m ≤ maxInt →
      calculateReplicaCount c m c.FullRedundancy = m - 1 := by
    intro m h1 h2
    unfold calculateReplicaCount
    rw [if_pos rfl, intSub_one m h1 h2]
  refine ⟨key n hlo hhi, ?_, ?_⟩
  · rw [key 4 (small_in_range 4 (by decide) (by decide)).1
      (small_in_range 4 (by decide) (by decide)).2]; rfl
  · rw [key 0 (small_in_range 0 (by decide) (by decide)).1
      (small_in_range 0 (by decide) (by decide)).2]; rfl

theorem calculateReplicaCount_full_witness :
    minInt < 4 ∧ (4 : Int) ≤ maxInt ∧
    calculateReplicaCount apiPolicyNames 4 apiPolicyNames.FullRedundancy = 4 - 1 :=
  ⟨by decide, by decide,
    (calculateReplicaCount_full apiPolicyNames 4 (by decide) (by decide)).1⟩

/-- C2, as stated, fails: with the Multiple policy and 0 data nodes the code returns 0,
while the floor of (0 - 1) / 2 is -1; so the result is not the floor for all counts. -/
theorem calculateReplicaCount_multiple_floor_fails :
    calculateReplicaCount apiPolicyNames 0 apiPolicyNames.MultipleRedundancy = 0 ∧
    ⌊((0 : ℚ) - 1) / 2⌋ = -1 ∧
    ¬ ∀ (c : RedundancyPolicyNames) (n : Int), c.Distinct → minInt < n → n ≤ maxInt →
      calculateReplicaCount c n c.MultipleRedundancy = ⌊((n : ℚ) - 1) / 2⌋ := by
  have h1 : calculateReplicaCount apiPolicyNames 0 apiPolicyNames.MultipleRedundancy = 0 := by
    decide
  have h2 : ⌊((0 : ℚ) - 1) / 2⌋ = -1 := by norm_num [Int.floor_eq_iff]
  refine ⟨h1, h2, ?_⟩
  intro h
  have h0 := h apiPolicyNames 0 (by decide) (by decide) (by decide)
  rw [h1] at h0
  have h3 : ⌊(((0 : Int) : ℚ) - 1) / 2⌋ = -1 := by norm_num [Int.floor_eq_iff]
  rw [h3] at h0
  exact absurd h0 (by decide)

/-- C2, amended. With the Multiple policy and at least one data node the replica count
is the floor of (nodeCount - 1) / 2; 5 data nodes give 2 and 4 data nodes give 1. -/
theorem calculateReplicaCount_multiple_floor (c : RedundancyPolicyNames) (n : Int)
    (hd : c.Distinct) (hpos : 1 ≤ n) (hhi : n ≤ maxInt) :
    calculateReplicaCount c n c.MultipleRedundancy = ⌊((n : ℚ) - 1) / 2⌋ ∧
    calculateReplicaCount c 5 c.MultipleRedundancy = 2 ∧
    calculateReplicaCount c 4 c.MultipleRedundancy = 1 := by
  refine ⟨?_, ?_, ?_⟩
  · rw [replica_multiple_eq c n hd (by unfold minInt; omega) hhi,
      Int.tdiv_eq_ediv (by omega) (by decide)]
    have h := Rat.floor_intCast_div_natCast (n - 1) 2
    push_cast at h
    rw [h]
  · rw [replica_multiple_eq c 5 hd (small_in_range 5 (by decide) (by decide)).1
      (small_in_range 5 (by decide) (by decide)).2]; rfl
  · rw [replica_multiple_eq c 4 hd (small_in_range 4 (by decide) (by decide)).1
      (small_in_range 4 (by decide) (by decide)).2]; rfl

theorem calculateReplicaCount_multiple_floor_witness :
    apiPolicyNames.Distinct ∧ (1 : Int) ≤ 5 ∧ (5 : Int) ≤ maxInt ∧
    calculateReplicaCount apiPolicyNames 5 apiPolicyNames.MultipleRedundancy
      = ⌊(((5 : Int) : ℚ) - 1) / 2⌋ :=
  ⟨by decide, by decide, by decide,
    (calculateReplicaCount_multiple_floor apiPolicyNames 5 (by decide) (by decide)
      (by decide)).1⟩

/-- C3. With the Multiple policy the replica count is the quotient of `n - 1` by 2
truncated toward zero, for every data-node count `n` whose predecessor is an `int`;
0, 1 and 2 data nodes give 0 and 3 data nodes give 1. -/
theorem calculateReplicaCount_multiple_truncates (c : RedundancyPolicyNames) (n : Int)
    (hd : c.Distinct) (hlo : minInt < n) (hhi : n ≤ maxInt) :
    calculateReplicaCount c n c.MultipleRedundancy = Int.tdiv (n - 1) 2 ∧
    calculateReplicaCount c 0 c.MultipleRedundancy = 0 ∧
    calculateReplicaCount c 1 c.MultipleRedundancy = 0 ∧
    calculateReplicaCount c 2 c.MultipleRedundancy = 0 ∧
    calculateReplicaCount c 3 c.MultipleRedundancy = 1 := by
  refine ⟨replica_multiple_eq c n hd hlo hhi, ?_, ?_, ?_, ?_⟩
  · rw [replica_multiple_eq c 0 hd (small_in_range 0 (by decide) (by decide)).1
      (small_in_range 0 (by decide) (by decide)).2]; rfl
  · rw [replica_multiple_eq c 1 hd (small_in_range 1 (by decide) (by decide)).1
      (small_in_range 1 (by decide) (by decide)).2]; rfl
  · rw [replica_multiple_eq c 2 hd (small_in_range 2 (by decide) (by decide)).1
      (small_in_range 2 (by decide) (by decide)).2]; rfl
  · rw [replica_multiple_eq c 3 hd (small_in_range 3 (by decide) (by decide)).1
      (small_in_range 3 (by decide) (by decide)).2]; rfl

theorem calculateReplicaCount_multiple_truncates_witness :
    apiPolicyNames.Distinct ∧ minInt < 0 ∧ (0 : Int) ≤ maxInt ∧
    calculateReplicaCount apiPolicyNames 0 apiPolicyNames.MultipleRedundancy
      = Int.tdiv (0 - 1) 2 :=
  ⟨by decide, by decide, by decide,
    (calculateReplicaCount_multiple_truncates apiPolicyNames 0 (by decide) (by decide)
      (by decide)).1⟩

/-- C4. The replica count is 1 with the Single policy and 0 with the Zero policy,
whatever the data-node count (0 included). -/
theorem calculateReplicaCount_single_zero (c : RedundancyPolicyNames) (n : Int)
    (hd : c.Distinct) :
    calculateReplicaCount c n c.SingleRedundancy = 1 ∧
    calculateReplicaCount c n c.ZeroRedundancy = 0 := by
  obtain ⟨h1, h2, h3, h4, h5, h6⟩ := hd
  unfold calculateReplicaCount
  constructor
  · rw [if_neg (Ne.symm h2), if_neg (Ne.symm h4), if_pos rfl]
  · rw [if_neg (Ne.symm h3), if_neg (Ne.symm h5), if_neg (Ne.symm h6), if_pos rfl]

theorem calculateReplicaCount_single_zero_witness :
    apiPolicyNames.Distinct ∧
    calculateReplicaCount apiPolicyNames 0 apiPolicyNames.SingleRedundancy = 1 ∧
    calculateReplicaCount apiPolicyNames 0 apiPolicyNames.ZeroRedundancy = 0 :=
  ⟨by decide, calculateReplicaCount_single_zero apiPolicyNames 0 (by decide)⟩

/-- C5. For a policy value that is none of the four constants the replica count is 1,
whatever the data-node count; the function has no failing outcome. -/
theorem calculateReplicaCount_unknown (c : RedundancyPolicyNames) (n : Int) (repType : String)
    (hf : repType ≠ c.FullRedundancy) (hm : repType ≠ c.MultipleRedundancy)
    (hs : repType ≠ c.SingleRedundancy) (hz : repType ≠ c.ZeroRedundancy) :
    calculateReplicaCount c n repType = 1 := by
  unfold calculateReplicaCount
  rw [if_neg hf, if_neg hm, if_neg hs, if_neg hz]

theorem calculateReplicaCount_unknown_witness :
    "" ≠ apiPolicyNames.FullRedundancy ∧ "" ≠ apiPolicyNames.MultipleRedundancy ∧
    "" ≠ apiPolicyNames.SingleRedundancy ∧ "" ≠ apiPolicyNames.ZeroRedundancy ∧
    calculateReplicaCount apiPolicyNames 0 "" = 1 :=
  ⟨by decide, by decide, by decide, by decide,
    calculateReplicaCount_unknown apiPolicyNames 0 "" (by decide) (by decide) (by decide)
      (by decide)⟩

end K8sHandler

namespace K8sHandler

/-! ## Index mode -/

theorem kibanaIndexMode_invalid (mode : String) (h0 : mode ≠ "") (hu : mode ≠ "unique")
    (hs : mode ≠ "shared_ops") :
    kibanaIndexMode mode
      = ("", some ("invalid kibana index mode provided [" ++ mode ++ "]")) := by
  unfold kibanaIndexMode
  rw [if_neg h0, if_neg (by simp [modeUnique, modeSharedOps, hu, hs]), errorf_index_mode]

theorem kibanaIndexMode_error_iff (mode : String) :
    (kibanaIndexMode mode).2 ≠ none ↔ mode ≠ "" ∧ mode ≠ "unique" ∧ mode ≠ "shared_ops" := by
  constructor
  · intro h
    refine ⟨?_, ?_, ?_⟩ <;> intro hm <;> subst hm <;> exact h (by decide)
  · rintro ⟨h0, hu, hs⟩
    rw [kibanaIndexMode_invalid mode h0 hu hs]
    simp

/-- C6. The index-mode validation succeeds on exactly three inputs: the empty string
yields the default mode "shared_ops", "unique" yields "unique" and "shared_ops" yields
"shared_ops", each with a nil error; every other input yields an error. -/
theorem kibanaIndexMode_succeeds_on_three :
    kibanaIndexMode "" = ("shared_ops", none) ∧ defaultMode = "shared_ops" ∧
    kibanaIndexMode "unique" = ("unique", none) ∧
    kibanaIndexMode "shared_ops" = ("shared_ops", none) ∧
    ∀ mode : String,
      (kibanaIndexMode mode).2 = none ↔ mode = "" ∨ mode = "unique" ∨ mode = "shared_ops" := by
  refine ⟨by decide, by decide, by decide, by decide, ?_⟩
  intro mode
  have h := kibanaIndexMode_error_iff mode
  constructor
  · intro hn
    by_contra hc
    push_neg at hc
    exact (h.mpr hc) hn
  · intro hm
    by_contra hc
    have := h.mp hc
    tauto

/-- C7. The index-mode validation returns an error exactly when the mode is non-empty
and is neither "unique" nor "shared_ops"; with the error it returns the empty string,
not the default mode.  "bogus", "Unique" and " unique" are such inputs. -/
theorem kibanaIndexMode_never_substitutes (mode : String) :
    ((kibanaIndexMode mode).2 ≠ none ↔
      mode ≠ "" ∧ mode ≠ "unique" ∧ mode ≠ "shared_ops") ∧
    ((kibanaIndexMode mode).2 ≠ none →
      (kibanaIndexMode mode).1 = "" ∧ (kibanaIndexMode mode).1 ≠ defaultMode) ∧
    (kibanaIndexMode "bogus").2 ≠ none ∧ (kibanaIndexMode "Unique").2 ≠ none ∧
    (kibanaIndexMode " unique").2 ≠ none := by
  refine ⟨kibanaIndexMode_error_iff mode, ?_, ?_, ?_, ?_⟩
  · intro h
    obtain ⟨h0, hu, hs⟩ := (kibanaIndexMode_error_iff mode).mp h
    rw [kibanaIndexMode_invalid mode h0 hu hs]
    refine ⟨rfl, ?_⟩
    show ("" : String) ≠ defaultMode
    decide
  · exact (kibanaIndexMode_error_iff "bogus").mpr (by decide)
  · exact (kibanaIndexMode_error_iff "Unique").mpr (by decide)
  · exact (kibanaIndexMode_error_iff " unique").mpr (by decide)

theorem kibanaIndexMode_never_substitutes_witness :
    (kibanaIndexMode "bogus").2 ≠ none ∧
    (kibanaIndexMode "bogus").1 = "" ∧ (kibanaIndexMode "bogus").1 ≠ defaultMode :=
  ⟨(kibanaIndexMode_never_substitutes "bogus").2.2.1,
    (kibanaIndexMode_never_substitutes "bogus").2.1
      (kibanaIndexMode_never_substitutes "bogus").2.2.1⟩

/-- C8. Whenever the index-mode validation fails, the text of its error is exactly
"invalid kibana index mode provided [" followed by the given mode and "]", so the
text contains the mode verbatim. -/
theorem kibanaIndexMode_error_text (mode : String) (herr : (kibanaIndexMode mode).2 ≠ none) :
    (kibanaIndexMode mode).2 = some ("invalid kibana index mode provided [" ++ mode ++ "]") ∧
    mode.data <:+: ("invalid kibana index mode provided [" ++ mode ++ "]").data := by
  obtain ⟨h0, hu, hs⟩ := (kibanaIndexMode_error_iff mode).mp herr
  rw [kibanaIndexMode_invalid mode h0 hu hs]
  refine ⟨rfl, ?_⟩
  exact ⟨"invalid kibana index mode provided [".data, "]".data, by
    simp [String.data_append]⟩

theorem kibanaIndexMode_error_text_witness :
    (kibanaIndexMode "bogus").2 ≠ none ∧
    (kibanaIndexMode "bogus").2 = some "invalid kibana index mode provided [bogus]" :=
  ⟨by decide, (kibanaIndexMode_error_text "bogus" (by decide)).1⟩

/-! ## Discovery address -/

/-- C9. The discovery address is the cluster name, then "-cluster.", then the
namespace, then ".svc"; for "elasticsearch" in "openshift-logging" it is
"elasticsearch-cluster.openshift-logging.svc". -/
theorem esUnicastHost_eq (clusterName ns : String) :
    esUnicastHost clusterName ns = clusterName ++ "-cluster." ++ ns ++ ".svc" ∧
    esUnicastHost "elasticsearch" "openshift-logging"
      = "elasticsearch-cluster.openshift-logging.svc" := by
  constructor
  · unfold esUnicastHost
    rw [sprintf_unicast]
    rfl
  · decide

end K8sHandler
namespace K8sHandler

/-! ## Replica count: bounds and monotonicity -/

theorem tdiv_two_mono (a b : Int) (h : a ≤ b) : Int.tdiv a 2 ≤ Int.tdiv b 2 := by
  rcases lt_or_le a 0 with ha | ha <;> rcases lt_or_le b 0 with hb | hb
  · rw [tdiv_two_of_neg a ha, tdiv_two_of_neg b hb]; omega
  · rw [tdiv_two_of_neg a ha, Int.tdiv_eq_ediv hb (by decide)]; omega
  · omega
  · rw [Int.tdiv_eq_ediv ha (by decide), Int.tdiv_eq_ediv hb (by decide)]; omega

theorem replica_full_eq (c : RedundancyPolicyNames) (n : Int) (hlo : minInt < n)
    (hhi : n ≤ maxInt) : calculateReplicaCount c n c.FullRedundancy = n - 1 := by
  unfold calculateReplicaCount
  rw [if_pos rfl, intSub_one n hlo hhi]

theorem replica_single_eq (c : RedundancyPolicyNames) (n : Int) (hd : c.Distinct) :
    calculateReplicaCount c n c.SingleRedundancy = 1 := by
  obtain ⟨_, h2, _, h4, _, _⟩ := hd
  unfold calculateReplicaCount
  rw [if_neg (Ne.symm h2), if_neg (Ne.symm h4), if_pos rfl]

theorem replica_zero_eq (c : RedundancyPolicyNames) (n : Int) (hd : c.Distinct) :
    calculateReplicaCount c n c.ZeroRedundancy = 0 := by
  obtain ⟨_, _, h3, _, h5, h6⟩ := hd
  unfold calculateReplicaCount
  rw [if_neg (Ne.symm h3), if_neg (Ne.symm h5), if_neg (Ne.symm h6), if_pos rfl]

theorem replica_unknown_eq (c : RedundancyPolicyNames) (n : Int) (repType : String)
    (hf : repType ≠ c.FullRedundancy) (hm : repType ≠ c.MultipleRedundancy)
    (hs : repType ≠ c.SingleRedundancy) (hz : repType ≠ c.ZeroRedundancy) :
    calculateReplicaCount c n repType = 1 := by
  unfold calculateReplicaCount
  rw [if_neg hf, if_neg hm, if_neg hs, if_neg hz]

/-- The replica count is one of the five arms of the `switch`. -/
theorem replica_arms (c : RedundancyPolicyNames) (n : Int) (repType : String)
    (hlo : minInt < n) (hhi : n ≤ maxInt) :
    calculateReplicaCount c n repType = n - 1 ∨
    calculateReplicaCount c n repType = Int.tdiv (n - 1) 2 ∨
    calculateReplicaCount c n repType = 1 ∨ calculateReplicaCount c n repType = 0 := by
  have hd : intDiv (n - 1) 2 = Int.tdiv (n - 1) 2 := by
    apply intDiv_two <;> unfold minInt maxInt at * <;> omega
  unfold calculateReplicaCount
  rw [intSub_one n hlo hhi, hd]
  split
  · exact Or.inl rfl
  · split
    · exact Or.inr (Or.inl rfl)
    · split
      · exact Or.inr (Or.inr (Or.inl rfl))
      · split
        · exact Or.inr (Or.inr (Or.inr rfl))
        · exact Or.inr (Or.inr (Or.inl rfl))

/-- C14. Replica-count feasibility bound.  From two data nodes on, the replica count
of every policy value lies between 0 and the data-node count minus one; from one data
node on, the Multiple count is at most the Full count; and with exactly one data node
the bound fails exactly for Single and for unknown policy values, which give 1. -/
theorem calculateReplicaCount_feasible (c : RedundancyPolicyNames) (n : Int)
    (hd : c.Distinct) (hpos : 1 ≤ n) (hhi : n ≤ maxInt) :
    (2 ≤ n → ∀ repType : String,
      0 ≤ calculateReplicaCount c n repType ∧ calculateReplicaCount c n repType ≤ n - 1) ∧
    calculateReplicaCount c n c.MultipleRedundancy
      ≤ calculateReplicaCount c n c.FullRedundancy ∧
    (∀ repType : String,
      ¬ (0 ≤ calculateReplicaCount c 1 repType ∧ calculateReplicaCount c 1 repType ≤ 1 - 1) ↔
        (repType = c.SingleRedundancy ∨
          (repType ≠ c.FullRedundancy ∧ repType ≠ c.MultipleRedundancy ∧
            repType ≠ c.SingleRedundancy ∧ repType ≠ c.ZeroRedundancy))) ∧
    (∀ repType : String,
      ¬ (0 ≤ calculateReplicaCount c 1 repType ∧ calculateReplicaCount c 1 repType ≤ 1 - 1) →
        calculateReplicaCount c 1 repType = 1) := by
  have hlo : minInt < n := by unfold minInt; omega
  have h1 : minInt < 1 ∧ (1 : Int) ≤ maxInt := small_in_range 1 (by decide) (by decide)
  have hfull1 : calculateReplicaCount c 1 c.FullRedundancy = 0 := by
    rw [replica_full_eq c 1 h1.1 h1.2]; rfl
  have hmult1 : calculateReplicaCount c 1 c.MultipleRedundancy = 0 := by
    rw [replica_multiple_eq c 1 hd h1.1 h1.2]; rfl
  refine ⟨?_, ?_, ?_, ?_⟩
  · intro h2 repType
    have he : Int.tdiv (n - 1) 2 = (n - 1) / 2 := Int.tdiv_eq_ediv (by omega) (by decide)
    rcases replica_arms c n repType hlo hhi with h | h | h | h <;> rw [h] <;> omega
  · rw [replica_multiple_eq c n hd hlo hhi, replica_full_eq c n hlo hhi,
      Int.tdiv_eq_ediv (by omega) (by decide)]
    omega
  · intro repType
    constructor
    · intro hb
      by_contra hc
      push_neg at hc
      obtain ⟨hns, hk⟩ := hc
      apply hb
      by_cases hf : repType = c.FullRedundancy
      · rw [hf, hfull1]; decide
      · by_cases hm : repType = c.MultipleRedundancy
        · rw [hm, hmult1]; decide
        · rw [hk hf hm hns, replica_zero_eq c 1 hd]; decide
    · rintro (hs | ⟨hf, hm, hs, hz⟩)
      · rw [hs, replica_single_eq c 1 hd]; decide
      · rw [replica_unknown_eq c 1 repType hf hm hs hz]; decide
  · intro repType hb
    rcases replica_arms c 1 repType h1.1 h1.2 with h | h | h | h
    · exact absurd (by rw [h]; decide) hb
    · exact absurd (by rw [h]; decide) hb
    · exact h
    · exact absurd (by rw [h]; decide) hb

end K8sHandler

namespace K8sHandler

theorem calculateReplicaCount_feasible_witness :
    apiPolicyNames.Distinct ∧ (1 : Int) ≤ 2 ∧ (2 : Int) ≤ maxInt ∧
    0 ≤ calculateReplicaCount apiPolicyNames 2 "SingleRedundancy" ∧
    calculateReplicaCount apiPolicyNames 2 "SingleRedundancy" ≤ 2 - 1 :=
  ⟨by decide, by decide, by decide,
    (calculateReplicaCount_feasible apiPolicyNames 2 (by decide) (by decide) (by decide)).1
      (by decide) "SingleRedundancy"⟩

/-- C17. For every fixed policy value the replica count is monotone non-decreasing in
the data-node count: for data-node counts `n ≤ m` (with the predecessor of `n` an
`int`) the count for `n` is at most the count for `m`; this includes the Multiple
policy around 0, where the division truncates toward zero. -/
theorem calculateReplicaCount_monotone (c : RedundancyPolicyNames) (repType : String)
    (n m : Int) (hlo : minInt < n) (hnm : n ≤ m) (hhi : m ≤ maxInt) :
    calculateReplicaCount c n repType ≤ calculateReplicaCount c m repType := by
  have hn : intSub n 1 = n - 1 := intSub_one n hlo (le_trans hnm hhi)
  have hm : intSub m 1 = m - 1 := intSub_one m (lt_of_lt_of_le hlo hnm) hhi
  have hdn : intDiv (n - 1) 2 = Int.tdiv (n - 1) 2 := by
    apply intDiv_two <;> unfold minInt maxInt at * <;> omega
  have hdm : intDiv (m - 1) 2 = Int.tdiv (m - 1) 2 := by
    apply intDiv_two <;> unfold minInt maxInt at * <;> omega
  unfold calculateReplicaCount
  rw [hn, hm, hdn, hdm]
  split
  · omega
  · split
    · exact tdiv_two_mono (n - 1) (m - 1) (by omega)
    · split
      · exact le_refl _
      · split <;> exact le_refl _

theorem calculateReplicaCount_monotone_witness :
    minInt < -1 ∧ (-1 : Int) ≤ 0 ∧ (0 : Int) ≤ maxInt ∧
    calculateReplicaCount apiPolicyNames (-1) "MultipleRedundancy"
      ≤ calculateReplicaCount apiPolicyNames 0 "MultipleRedundancy" :=
  ⟨by decide, by decide, by decide,
    calculateReplicaCount_monotone apiPolicyNames "MultipleRedundancy" (-1) 0 (by decide)
      (by decide) (by decide)⟩

/-! ## Index mode: idempotence -/

/-- C16. Whenever the index-mode validation succeeds, its result is "unique" or
"shared_ops" (never the empty string), validating the result again succeeds with the
same result, and the result is the input whenever the input is non-empty. -/
theorem kibanaIndexMode_idempotent (mode m : String)
    (hok : kibanaIndexMode mode = (m, none)) :
    (m = "unique" ∨ m = "shared_ops") ∧ m ≠ "" ∧ kibanaIndexMode m = (m, none) ∧
    (mode ≠ "" → m = mode) := by
  have hnone : (kibanaIndexMode mode).2 = none := by rw [hok]
  have hcases : mode = "" ∨ mode = "unique" ∨ mode = "shared_ops" := by
    by_contra hc
    push_neg at hc
    exact (kibanaIndexMode_error_iff mode).mpr hc hnone
  have hm : m = (kibanaIndexMode mode).1 := by rw [hok]
  rcases hcases with h | h | h <;> subst h <;> subst hm <;>
    exact ⟨by decide, by decide, by decide, by decide⟩

theorem kibanaIndexMode_idempotent_witness :
    kibanaIndexMode "" = ("shared_ops", none) ∧
    kibanaIndexMode "shared_ops" = ("shared_ops", none) :=
  ⟨by decide, (kibanaIndexMode_idempotent "" "shared_ops" (by decide)).2.2.1⟩

/-! ## Discovery address: injectivity -/

theorem append_cons_cancel {α : Type} (x : α) (a b s t : List α)
    (hs : x ∉ s) (ht : x ∉ t) (h : a ++ x :: s = b ++ x :: t) : a = b ∧ s = t := by
  rcases List.append_eq_append_iff.mp h with ⟨r, hb, hr⟩ | ⟨r, ha, hr⟩
  · cases r with
    | nil =>
      simp only [List.nil_append, List.cons.injEq, true_and] at hr
      exact ⟨by simpa using hb.symm, hr⟩
    | cons y r =>
      simp only [List.cons_append, List.cons.injEq] at hr
      exact absurd (by rw [hr.2]; simp) hs
  · cases r with
    | nil =>
      simp only [List.nil_append, List.cons.injEq, true_and] at hr
      exact ⟨by simpa using ha, hr.symm⟩
    | cons y r =>
      simp only [List.cons_append, List.cons.injEq] at hr
      exact absurd (by rw [hr.2]; simp) ht

/-- C15. On namespaces without a '.' the discovery address determines the cluster
name and the namespace; with dots allowed it does not: "a" in "b-cluster.c" and
"a-cluster.b" in "c" share the address "a-cluster.b-cluster.c.svc". -/
theorem esUnicastHost_injective (clusterName1 clusterName2 ns1 ns2 : String)
    (h1 : '.' ∉ ns1.data) (h2 : '.' ∉ ns2.data)
    (heq : esUnicastHost clusterName1 ns1 = esUnicastHost clusterName2 ns2) :
    (clusterName1 = clusterName2 ∧ ns1 = ns2) ∧
    esUnicastHost "a" "b-cluster.c" = "a-cluster.b-cluster.c.svc" ∧
    esUnicastHost "a-cluster.b" "c" = "a-cluster.b-cluster.c.svc" ∧
    ("a", "b-cluster.c") ≠ ("a-cluster.b", "c") := by
  refine ⟨?_, by decide, by decide, by decide⟩
  unfold esUnicastHost at heq
  rw [sprintf_unicast, sprintf_unicast] at heq
  simp only [Option.getD_some] at heq
  have hd := congrArg String.data heq
  simp only [String.data_append] at hd
  have hsvc := List.append_cancel_right hd
  have hsplit : ∀ c : String, c.data ++ "-cluster.".data
      = (c.data ++ "-cluster".data) ++ ['.'] := by
    intro c; simp
  rw [hsplit clusterName1, hsplit clusterName2] at hsvc
  simp only [List.append_assoc, List.singleton_append] at hsvc
  rw [← List.append_assoc, ← List.append_assoc] at hsvc
  obtain ⟨hc, hn⟩ := append_cons_cancel '.' _ _ _ _ h1 h2 hsvc
  exact ⟨String.ext (List.append_cancel_right hc), String.ext hn⟩

theorem esUnicastHost_injective_witness :
    '.' ∉ "openshift-logging".data ∧
    esUnicastHost "elasticsearch" "openshift-logging"
      = esUnicastHost "elasticsearch" "openshift-logging" ∧
    "elasticsearch" = "elasticsearch" ∧ "openshift-logging" = "openshift-logging" :=
  ⟨by decide, rfl,
    (esUnicastHost_injective "elasticsearch" "elasticsearch" "openshift-logging"
      "openshift-logging" (by decide) (by decide) rfl).1⟩

end K8sHandler
namespace K8sHandler

namespace KibanaReconciler

/-! ## Store lemmas -/

theorem Store.get_filter_self (s : Store) (k : ObjectKey) :
    Store.get { objects := s.objects.filter (fun x => decide (x.key ≠ k)),
                writes := s.writes + 1 } k = none := by
  unfold Store.get
  rw [List.find?_eq_none]
  intro x hx
  simp only [List.mem_filter, decide_eq_true_eq] at hx
  simpa using hx.2

theorem Store.get_filter_none (s : Store) (k k' : ObjectKey) (h : s.get k' = none) :
    Store.get { objects := s.objects.filter (fun x => decide (x.key ≠ k)),
                writes := s.writes + 1 } k' = none := by
  unfold Store.get at *
  rw [List.find?_eq_none] at *
  intro x hx
  exact h x (List.mem_filter.mp hx).1

theorem Store.get_key (s : Store) (k : ObjectKey) (o : Object) (h : s.get k = some o) :
    o.key = k := by
  unfold Store.get at h
  simpa using List.find?_some h

/-! ## Steps -/

theorem deleteIfPresent_ok (k : ObjectKey) (s : Store) : (deleteIfPresent k s).2 = none := by
  unfold deleteIfPresent Store.delete
  cases h : s.get k <;> rfl

theorem deleteIfPresent_absent (k : ObjectKey) (s : Store) :
    (deleteIfPresent k s).1.get k = none := by
  unfold deleteIfPresent Store.delete
  cases h : s.get k
  · exact h
  · exact Store.get_filter_self s k

theorem deleteIfPresent_keeps_absent (k k' : ObjectKey) (s : Store) (h : s.get k' = none) :
    (deleteIfPresent k s).1.get k' = none := by
  unfold deleteIfPresent Store.delete
  cases hk : s.get k
  · exact h
  · exact Store.get_filter_none s k k' h

theorem andThen_of_ok (first next : Store → Outcome) (s : Store)
    (h : (first s).2 = none) : andThen first next s = next (first s).1 := by
  unfold andThen
  rcases hf : first s with ⟨s', e⟩
  rw [hf] at h
  cases e with
  | none => rfl
  | some e => cases h

theorem converge_ok (want : Object) (s : Store) : (converge want s).2 = none := by
  unfold converge
  cases h : s.get want.key with
  | none => simp [Store.create, h]
  | some cur =>
    have hk : cur.key = want.key := Store.get_key s want.key cur h
    simp only
    split
    · rfl
    · simp [Store.update, hk, h]

theorem removeDeprecated_ok (cluster : Kibana) (s : Store) :
    (removeDeprecated cluster s).2 = none := by
  unfold removeDeprecated
  rw [andThen_of_ok _ _ _ (deleteIfPresent_ok _ _),
    andThen_of_ok _ _ _ (deleteIfPresent_ok _ _)]
  exact deleteIfPresent_ok _ _

theorem removeDeprecated_absent (cluster : Kibana) (s : Store) :
    (removeDeprecated cluster s).1.get (sharingConfigKey cluster) = none ∧
    (removeDeprecated cluster s).1.get (sharingConfigReaderKey cluster) = none ∧
    (removeDeprecated cluster s).1.get (sharingConfigReaderBindingKey cluster) = none := by
  unfold removeDeprecated
  rw [andThen_of_ok _ _ _ (deleteIfPresent_ok _ _),
    andThen_of_ok _ _ _ (deleteIfPresent_ok _ _)]
  refine ⟨?_, ?_, ?_⟩
  · exact deleteIfPresent_keeps_absent _ _ _
      (deleteIfPresent_keeps_absent _ _ _ (deleteIfPresent_absent _ _))
  · exact deleteIfPresent_keeps_absent _ _ _ (deleteIfPresent_absent _ _)
  · exact deleteIfPresent_absent _ _


/-! ## Lists of objects -/

theorem find_filter_imp {α : Type} (p q : α → Bool) (l : List α)
    (h : ∀ x, p x = true → q x = true) : (l.filter q).find? p = l.find? p := by
  induction l with
  | nil => rfl
  | cons x l ih =>
    cases hq : q x <;> cases hp : p x
    · rw [List.filter_cons_of_neg (by simp [hq]), List.find?_cons_of_neg _ (by simp [hp]), ih]
    · rw [h x hp] at hq; cases hq
    · rw [List.filter_cons_of_pos hq, List.find?_cons_of_neg _ (by simp [hp]),
        List.find?_cons_of_neg _ (by simp [hp]), ih]
    · rw [List.filter_cons_of_pos hq, List.find?_cons_of_pos _ hp, List.find?_cons_of_pos _ hp]

theorem filter_filter_imp {α : Type} (p q : α → Bool) (l : List α)
    (h : ∀ x, p x = true → q x = true) : (l.filter q).filter p = l.filter p := by
  induction l with
  | nil => rfl
  | cons x l ih =>
    cases hq : q x <;> cases hp : p x
    · rw [List.filter_cons_of_neg (by simp [hq]), List.filter_cons_of_neg (by simp [hp]), ih]
    · rw [h x hp] at hq; cases hq
    · rw [List.filter_cons_of_pos hq, List.filter_cons_of_neg (by simp [hp]),
        List.filter_cons_of_neg (by simp [hp]), ih]
    · rw [List.filter_cons_of_pos hq, List.filter_cons_of_pos hp, List.filter_cons_of_pos hp, ih]

theorem find_map_fix {α : Type} (p : α → Bool) (f : α → α) (l : List α)
    (hp : ∀ x, p (f x) = p x) (hf : ∀ x, p x = true → f x = x) :
    (l.map f).find? p = l.find? p := by
  induction l with
  | nil => rfl
  | cons x l ih =>
    rw [List.map_cons]
    cases hx : p x
    · rw [List.find?_cons_of_neg _ (by simp [hp, hx]), List.find?_cons_of_neg _ (by simp [hx]), ih]
    · rw [hf x hx, List.find?_cons_of_pos _ hx, List.find?_cons_of_pos _ hx]

theorem filter_map_fix {α : Type} (p : α → Bool) (f : α → α) (l : List α)
    (hp : ∀ x, p (f x) = p x) (hf : ∀ x, p x = true → f x = x) :
    (l.map f).filter p = l.filter p := by
  induction l with
  | nil => rfl
  | cons x l ih =>
    rw [List.map_cons]
    cases hx : p x
    · rw [List.filter_cons_of_neg (by simp [hp, hx]), List.filter_cons_of_neg (by simp [hx]), ih]
    · rw [hf x hx, List.filter_cons_of_pos hx, List.filter_cons_of_pos hx, ih]

theorem find_eq_head_filter {α : Type} (p : α → Bool) (l : List α) :
    l.find? p = (l.filter p).head? := by
  induction l with
  | nil => rfl
  | cons x l ih =>
    cases hx : p x
    · rw [List.find?_cons_of_neg _ (by simp [hx]), List.filter_cons_of_neg (by simp [hx]), ih]
    · rw [List.find?_cons_of_pos _ hx, List.filter_cons_of_pos hx]; rfl

theorem key_map_invariant (o : Object) (k k' : ObjectKey) (hk : k ≠ k') (ho : o.key = k')
    (x : Object) :
    decide ((if x.key = k' then o else x).key = k) = decide (x.key = k) := by
  by_cases hx : x.key = k'
  · have h1 : ¬ o.key = k := fun h => hk (h.symm.trans ho)
    have h2 : ¬ x.key = k := fun h => hk (h.symm.trans hx)
    rw [if_pos hx, decide_eq_false h1, decide_eq_false h2]
  · rw [if_neg hx]

theorem key_map_fixes (o : Object) (k k' : ObjectKey) (hk : k ≠ k') (x : Object)
    (hx : decide (x.key = k) = true) : (if x.key = k' then o else x) = x := by
  have hxk : x.key = k := of_decide_eq_true hx
  exact if_neg (fun h => hk (hxk.symm.trans h))

theorem key_filter_imp (k k' : ObjectKey) (hk : k ≠ k') (x : Object)
    (hx : decide (x.key = k) = true) : decide (x.key ≠ k') = true := by
  have hxk : x.key = k := of_decide_eq_true hx
  exact decide_eq_true (fun h => hk (hxk.symm.trans h))

theorem find_map_other (l : List Object) (o : Object) (k k' : ObjectKey) (hk : k ≠ k')
    (ho : o.key = k') :
    (l.map (fun x => if x.key = k' then o else x)).find? (fun x => decide (x.key = k))
      = l.find? (fun x => decide (x.key = k)) :=
  find_map_fix (fun x => decide (x.key = k)) (fun x => if x.key = k' then o else x) l
    (key_map_invariant o k k' hk ho) (key_map_fixes o k k' hk)

theorem find_map_hit {α : Type} (p : α → Bool) (f : α → α) (o c : α) (l : List α)
    (hp : ∀ x, p (f x) = p x) (hf : ∀ x, p x = true → f x = o)
    (h : l.find? p = some c) : (l.map f).find? p = some o := by
  induction l with
  | nil => cases h
  | cons x l ih =>
    rw [List.map_cons]
    cases hx : p x
    · rw [List.find?_cons_of_neg _ (by simp [hx])] at h
      rw [List.find?_cons_of_neg _ (by simp [hp, hx])]
      exact ih h
    · have hfx : p (f x) = true := by rw [hp, hx]
      rw [List.find?_cons_of_pos _ hfx, hf x hx]

theorem find_map_self (l : List Object) (o c : Object) (k : ObjectKey) (ho : o.key = k)
    (h : l.find? (fun x => decide (x.key = k)) = some c) :
    (l.map (fun x => if x.key = k then o else x)).find? (fun x => decide (x.key = k))
      = some o := by
  refine find_map_hit (fun x => decide (x.key = k)) (fun x => if x.key = k then o else x)
    o c l ?_ ?_ h
  · intro x
    by_cases hx : x.key = k
    · show decide ((if x.key = k then o else x).key = k) = decide (x.key = k)
      rw [if_pos hx, decide_eq_true ho, decide_eq_true hx]
    · simp only [if_neg hx]
  · intro x hx
    exact if_pos (of_decide_eq_true hx)

theorem find_filter_other (l : List Object) (k k' : ObjectKey) (hk : k ≠ k') :
    (l.filter (fun x => decide (x.key ≠ k'))).find? (fun x => decide (x.key = k))
      = l.find? (fun x => decide (x.key = k)) :=
  find_filter_imp (fun x => decide (x.key = k)) (fun x => decide (x.key ≠ k')) l
    (key_filter_imp k k' hk)

theorem filter_map_other (l : List Object) (o : Object) (k k' : ObjectKey) (hk : k ≠ k')
    (ho : o.key = k') :
    (l.map (fun x => if x.key = k' then o else x)).filter (fun x => decide (x.key = k))
      = l.filter (fun x => decide (x.key = k)) :=
  filter_map_fix (fun x => decide (x.key = k)) (fun x => if x.key = k' then o else x) l
    (key_map_invariant o k k' hk ho) (key_map_fixes o k k' hk)

theorem filter_filter_other (l : List Object) (k k' : ObjectKey) (hk : k ≠ k') :
    (l.filter (fun x => decide (x.key ≠ k'))).filter (fun x => decide (x.key = k))
      = l.filter (fun x => decide (x.key = k)) :=
  filter_filter_imp (fun x => decide (x.key = k)) (fun x => decide (x.key ≠ k')) l
    (key_filter_imp k k' hk)

theorem Store.get_eq_head_list (s : Store) (k : ObjectKey) : s.get k = (s.list k).head? :=
  find_eq_head_filter (fun o : Object => decide (o.key = k)) s.objects

/-! ## Convergence of one resource -/

/-- The three ways a convergence step can go: nothing to do, create, update in place. -/
theorem converge_cases (want : Object) (s : Store) :
    (Converged s want ∧ converge want s = (s, none)) ∨
    (s.get want.key = none ∧
      converge want s = ({ objects := s.objects ++ [want], writes := s.writes + 1 }, none)) ∨
    (∃ cur upd, s.get want.key = some cur ∧ upd.key = want.key ∧ upd.owners = want.owners ∧
      upd.annotations = want.annotations ∧ upd.data = want.data ∧
      converge want s =
        ({ objects := s.objects.map (fun x => if x.key = want.key then upd else x),
           writes := s.writes + 1 }, none)) := by
  cases h : s.get want.key with
  | none =>
    refine Or.inr (Or.inl ⟨rfl, ?_⟩)
    simp [converge, Store.create, h]
  | some cur =>
    have hk : cur.key = want.key := Store.get_key s want.key cur h
    by_cases heq : cur.owners = want.owners ∧ cur.annotations = want.annotations ∧
        cur.data = want.data
    · refine Or.inl ⟨⟨cur, h, heq⟩, ?_⟩
      simp [converge, h, heq]
    · refine Or.inr (Or.inr ⟨cur, Object.mk cur.key want.owners cur.labels want.annotations
        want.data cur.foreign, rfl, hk, rfl, rfl, rfl, ?_⟩)
      simp [converge, h, heq, Store.update, hk]

theorem converge_get_other (want : Object) (s : Store) (k : ObjectKey) (hk : k ≠ want.key) :
    (converge want s).1.get k = s.get k := by
  rcases converge_cases want s with ⟨_, h⟩ | ⟨_, h⟩ | ⟨cur, upd, _, hu, _, _, _, h⟩
  · rw [h]
  · rw [h]
    have hw : ¬ want.key = k := fun e => hk e.symm
    simp [Store.get, List.find?_append, hw]
  · rw [h]
    exact find_map_other s.objects upd k want.key hk hu

theorem converge_list_other (want : Object) (s : Store) (k : ObjectKey) (hk : k ≠ want.key) :
    (converge want s).1.list k = s.list k := by
  rcases converge_cases want s with ⟨_, h⟩ | ⟨_, h⟩ | ⟨cur, upd, _, hu, _, _, _, h⟩
  · rw [h]
  · rw [h]
    have hw : ¬ want.key = k := fun e => hk e.symm
    simp [Store.list, List.filter_append, List.filter_cons, hw]
  · rw [h]
    exact filter_map_other s.objects upd k want.key hk hu

theorem converge_converged (want : Object) (s : Store) : Converged (converge want s).1 want := by
  rcases converge_cases want s with ⟨hc, h⟩ | ⟨hn, h⟩ | ⟨cur, upd, hs, hu, h1, h2, h3, h⟩
  · rw [h]; exact hc
  · rw [h]
    refine ⟨want, ?_, rfl, rfl, rfl⟩
    unfold Store.get at hn ⊢
    simp [List.find?_append, hn]
  · rw [h]
    exact ⟨upd, find_map_self s.objects upd cur want.key hu hs, h1, h2, h3⟩

theorem converge_fixed (want : Object) (s : Store) (h : Converged s want) :
    converge want s = (s, none) := by
  obtain ⟨cur, hg, h1, h2, h3⟩ := h
  simp [converge, hg, h1, h2, h3]

theorem converged_of_get_eq (s s' : Store) (want : Object)
    (h : s'.get want.key = s.get want.key) (hc : Converged s want) : Converged s' want := by
  obtain ⟨cur, hg, hrest⟩ := hc
  exact ⟨cur, h.trans hg, hrest⟩

theorem converge_list_create (want : Object) (s : Store) (h : s.list want.key = []) :
    (converge want s).1.list want.key = [want] := by
  have hn : s.get want.key = none := by rw [Store.get_eq_head_list, h]; rfl
  rcases converge_cases want s with ⟨⟨cur, hg, _⟩, _⟩ | ⟨_, hc⟩ | ⟨cur, upd, hs, _⟩
  · rw [hn] at hg; cases hg
  · rw [hc]
    unfold Store.list at h ⊢
    simp [List.filter_append, h]
  · rw [hn] at hs; cases hs

theorem converged_of_list (want : Object) (s : Store) (h : s.list want.key = [want]) :
    Converged s want :=
  ⟨want, by rw [Store.get_eq_head_list, h]; rfl, rfl, rfl, rfl⟩

/-! ## Cleanup -/

theorem deleteIfPresent_cases (k : ObjectKey) (s : Store) :
    (s.get k = none ∧ deleteIfPresent k s = (s, none)) ∨
    deleteIfPresent k s =
      ({ objects := s.objects.filter (fun x => decide (x.key ≠ k)),
         writes := s.writes + 1 }, none) := by
  cases h : s.get k with
  | none => exact Or.inl ⟨rfl, by simp [deleteIfPresent, Store.delete, h]⟩
  | some o => exact Or.inr (by simp [deleteIfPresent, Store.delete, h])

theorem deleteIfPresent_get_other (k' : ObjectKey) (s : Store) (k : ObjectKey) (hk : k ≠ k') :
    (deleteIfPresent k' s).1.get k = s.get k := by
  rcases deleteIfPresent_cases k' s with ⟨_, h⟩ | h
  · rw [h]
  · rw [h]; exact find_filter_other s.objects k k' hk

theorem deleteIfPresent_list_other (k' : ObjectKey) (s : Store) (k : ObjectKey)
    (hk : k ≠ k') : (deleteIfPresent k' s).1.list k = s.list k := by
  rcases deleteIfPresent_cases k' s with ⟨_, h⟩ | h
  · rw [h]
  · rw [h]; exact filter_filter_other s.objects k k' hk

theorem deleteIfPresent_fixed (k : ObjectKey) (s : Store) (h : s.get k = none) :
    deleteIfPresent k s = (s, none) := by
  simp [deleteIfPresent, Store.delete, h]

theorem removeDeprecated_eq (cluster : Kibana) (s : Store) :
    removeDeprecated cluster s =
      deleteIfPresent (sharingConfigReaderBindingKey cluster)
        (deleteIfPresent (sharingConfigReaderKey cluster)
          (deleteIfPresent (sharingConfigKey cluster) s).1).1 := by
  unfold removeDeprecated
  rw [andThen_of_ok _ _ _ (deleteIfPresent_ok _ _),
    andThen_of_ok _ _ _ (deleteIfPresent_ok _ _)]

theorem removeDeprecated_get_other (cluster : Kibana) (s : Store) (k : ObjectKey)
    (h1 : k ≠ sharingConfigKey cluster) (h2 : k ≠ sharingConfigReaderKey cluster)
    (h3 : k ≠ sharingConfigReaderBindingKey cluster) :
    (removeDeprecated cluster s).1.get k = s.get k := by
  rw [removeDeprecated_eq, deleteIfPresent_get_other _ _ _ h3,
    deleteIfPresent_get_other _ _ _ h2, deleteIfPresent_get_other _ _ _ h1]

theorem removeDeprecated_list_other (cluster : Kibana) (s : Store) (k : ObjectKey)
    (h1 : k ≠ sharingConfigKey cluster) (h2 : k ≠ sharingConfigReaderKey cluster)
    (h3 : k ≠ sharingConfigReaderBindingKey cluster) :
    (removeDeprecated cluster s).1.list k = s.list k := by
  rw [removeDeprecated_eq, deleteIfPresent_list_other _ _ _ h3,
    deleteIfPresent_list_other _ _ _ h2, deleteIfPresent_list_other _ _ _ h1]

theorem removeDeprecated_fixed (cluster : Kibana) (s : Store)
    (h1 : s.get (sharingConfigKey cluster) = none)
    (h2 : s.get (sharingConfigReaderKey cluster) = none)
    (h3 : s.get (sharingConfigReaderBindingKey cluster) = none) :
    removeDeprecated cluster s = (s, none) := by
  rw [removeDeprecated_eq, deleteIfPresent_fixed _ _ h1, deleteIfPresent_fixed _ _ h2,
    deleteIfPresent_fixed _ _ h3]


/-! ## Sequencing -/

theorem andThen_ok_inv (first next : Store → Outcome) (s : Store)
    (h : (andThen first next s).2 = none) : (first s).2 = none := by
  unfold andThen at h
  rcases hf : first s with ⟨s', e⟩
  rw [hf] at h
  cases e with
  | none => rfl
  | some e => cases e <;> cases h

theorem key_ne_of_kind (k k' : ObjectKey) (h : k.kind ≠ k'.kind) : k ≠ k' :=
  fun e => h (congrArg ObjectKey.kind e)

/-! ## Convergence of a list of resources -/

theorem convergeAll_cons (want : Object) (rest : List Object) (s : Store) :
    convergeAll (want :: rest) s = convergeAll rest (converge want s).1 :=
  andThen_of_ok (converge want) (convergeAll rest) s (converge_ok want s)

theorem convergeAll_ok (ws : List Object) (s : Store) : (convergeAll ws s).2 = none := by
  induction ws generalizing s with
  | nil => rfl
  | cons w ws ih => rw [convergeAll_cons]; exact ih _

theorem convergeAll_get_other (ws : List Object) (s : Store) (k : ObjectKey)
    (h : ∀ w ∈ ws, k ≠ w.key) : (convergeAll ws s).1.get k = s.get k := by
  induction ws generalizing s with
  | nil => rfl
  | cons w ws ih =>
    rw [convergeAll_cons, ih _ (fun b hb => h b (List.mem_cons_of_mem _ hb)),
      converge_get_other _ _ _ (h w (List.mem_cons_self _ _))]

theorem convergeAll_list_other (ws : List Object) (s : Store) (k : ObjectKey)
    (h : ∀ w ∈ ws, k ≠ w.key) : (convergeAll ws s).1.list k = s.list k := by
  induction ws generalizing s with
  | nil => rfl
  | cons w ws ih =>
    rw [convergeAll_cons, ih _ (fun b hb => h b (List.mem_cons_of_mem _ hb)),
      converge_list_other _ _ _ (h w (List.mem_cons_self _ _))]

theorem converge_present (want : Object) (s : Store) (k : ObjectKey)
    (h : (s.get k).isSome = true) : ((converge want s).1.get k).isSome = true := by
  by_cases hk : k = want.key
  · obtain ⟨cur, hg, _⟩ := converge_converged want s
    rw [hk, hg]; rfl
  · rw [converge_get_other _ _ _ hk]; exact h

theorem convergeAll_present (ws : List Object) (s : Store) (k : ObjectKey)
    (h : (s.get k).isSome = true) : ((convergeAll ws s).1.get k).isSome = true := by
  induction ws generalizing s with
  | nil => exact h
  | cons w ws ih => rw [convergeAll_cons]; exact ih _ (converge_present w s k h)

theorem convergeAll_keeps (ws : List Object) (s : Store) (want : Object)
    (hc : Converged s want) (h : ∀ b ∈ ws, b.key = want.key → b = want) :
    Converged (convergeAll ws s).1 want := by
  induction ws generalizing s with
  | nil => exact hc
  | cons w ws ih =>
    rw [convergeAll_cons]
    refine ih _ ?_ (fun b hb => h b (List.mem_cons_of_mem _ hb))
    by_cases hk : w.key = want.key
    · rw [← h w (List.mem_cons_self _ _) hk]
      exact converge_converged w s
    · exact converged_of_get_eq s _ want
        (converge_get_other w s want.key (fun e => hk e.symm)) hc

theorem convergeAll_converged (ws : List Object) (s : Store)
    (h : ∀ a ∈ ws, ∀ b ∈ ws, a.key = b.key → a = b) :
    ∀ w ∈ ws, Converged (convergeAll ws s).1 w := by
  induction ws generalizing s with
  | nil => intro w hw; cases hw
  | cons x ws ih =>
    intro w hw
    rw [convergeAll_cons]
    rcases List.mem_cons.mp hw with hx | hmem
    · rw [hx]
      exact convergeAll_keeps ws _ x (converge_converged x s)
        (fun b hb hk => h b (List.mem_cons_of_mem _ hb) x (List.mem_cons_self _ _) hk)
    · exact ih _ (fun a ha b hb => h a (List.mem_cons_of_mem _ ha) b
        (List.mem_cons_of_mem _ hb)) w hmem

theorem convergeAll_fixed (ws : List Object) (s : Store) (h : ∀ w ∈ ws, Converged s w) :
    convergeAll ws s = (s, none) := by
  induction ws with
  | nil => rfl
  | cons w ws ih =>
    rw [convergeAll_cons, converge_fixed w s (h w (List.mem_cons_self _ _))]
    exact ih (fun b hb => h b (List.mem_cons_of_mem _ hb))

/-! ## The managed resources -/

theorem before_key (env : Env) (cluster : Kibana) (w : Object)
    (h : w ∈ desiredBeforeWorkload env cluster) :
    w = newManaged .ConfigMap cluster (env.configObject cluster) ∨
    ∃ m ∈ env.credentialObjects cluster, w = newManaged .Secret cluster m := by
  unfold desiredBeforeWorkload at h
  rcases List.mem_cons.mp h with h | h
  · exact Or.inl h
  · obtain ⟨m, hm, rfl⟩ := List.mem_map.mp h
    exact Or.inr ⟨m, hm, rfl⟩

theorem before_kind (env : Env) (cluster : Kibana) (w : Object)
    (h : w ∈ desiredBeforeWorkload env cluster) :
    w.key.kind = Kind.ConfigMap ∨ w.key.kind = Kind.Secret := by
  rcases before_key env cluster w h with rfl | ⟨m, _, rfl⟩
  · exact Or.inl rfl
  · exact Or.inr rfl

theorem after_key (env : Env) (cluster : Kibana) (w : Object)
    (h : w ∈ desiredAfterWorkload env cluster) :
    w = newManaged .RoleBinding cluster (env.accessBinding cluster) ∨
    w = newConsoleLink cluster env.AppLogsConsoleLinkName ∨
    w = newConsoleLink cluster env.InfraLogsConsoleLinkName := by
  simpa [desiredAfterWorkload] using h

theorem after_kind (env : Env) (cluster : Kibana) (w : Object)
    (h : w ∈ desiredAfterWorkload env cluster) :
    w.key.kind = Kind.RoleBinding ∨ w.key.kind = Kind.ConsoleLink := by
  rcases after_key env cluster w h with rfl | rfl | rfl
  · exact Or.inl rfl
  · exact Or.inr rfl
  · exact Or.inr rfl

theorem newConsoleLink_key_inj (cluster : Kibana) (a b : String)
    (h : (newConsoleLink cluster a).key = (newConsoleLink cluster b).key) : a = b := by
  simpa [newConsoleLink, consoleLinkKey] using h

/-- Keys of a kind that the reconciler never writes keep what the store held under
them through step 3. -/
theorem convergedStore_get_other (env : Env) (cluster : Kibana) (fp : String) (s : Store)
    (k : ObjectKey) (hb : ∀ w ∈ desiredBeforeWorkload env cluster, k ≠ w.key)
    (hd : k.kind ≠ Kind.Deployment) (ha : ∀ w ∈ desiredAfterWorkload env cluster, k ≠ w.key) :
    (convergedStore env cluster fp s).get k = s.get k := by
  unfold convergedStore
  rw [convergeAll_get_other _ _ _ ha, converge_get_other _ _ _ (key_ne_of_kind _ _ hd),
    convergeAll_get_other _ _ _ hb]

theorem convergedStore_list_other (env : Env) (cluster : Kibana) (fp : String) (s : Store)
    (k : ObjectKey) (hb : ∀ w ∈ desiredBeforeWorkload env cluster, k ≠ w.key)
    (hd : k.kind ≠ Kind.Deployment) (ha : ∀ w ∈ desiredAfterWorkload env cluster, k ≠ w.key) :
    (convergedStore env cluster fp s).list k = s.list k := by
  unfold convergedStore
  rw [convergeAll_list_other _ _ _ ha, converge_list_other _ _ _ (key_ne_of_kind _ _ hd),
    convergeAll_list_other _ _ _ hb]

theorem ne_before_of_kind (env : Env) (cluster : Kibana) (k : ObjectKey)
    (h1 : k.kind ≠ Kind.ConfigMap) (h2 : k.kind ≠ Kind.Secret) :
    ∀ w ∈ desiredBeforeWorkload env cluster, k ≠ w.key := by
  intro w hw e
  rcases before_kind env cluster w hw with h | h
  · exact h1 (by rw [e, h])
  · exact h2 (by rw [e, h])

theorem ne_after_of_kind (env : Env) (cluster : Kibana) (k : ObjectKey)
    (h1 : k.kind ≠ Kind.RoleBinding) (h2 : k.kind ≠ Kind.ConsoleLink) :
    ∀ w ∈ desiredAfterWorkload env cluster, k ≠ w.key := by
  intro w hw e
  rcases after_kind env cluster w hw with h | h
  · exact h1 (by rw [e, h])
  · exact h2 (by rw [e, h])

/-! ## Shape of a reconciliation -/

theorem missingCredential_none (cluster : Kibana) (s : Store)
    (h1 : (s.get (secretKey cluster "kibana")).isSome = true)
    (h2 : (s.get (secretKey cluster "kibana-proxy")).isSome = true) :
    missingCredential cluster s = none := by
  obtain ⟨o1, h1⟩ := Option.isSome_iff_exists.mp h1
  obtain ⟨o2, h2⟩ := Option.isSome_iff_exists.mp h2
  simp [missingCredential, requirePresent, h1, h2]

theorem missingCredential_present (cluster : Kibana) (s : Store)
    (h : missingCredential cluster s = none) :
    (s.get (secretKey cluster "kibana")).isSome = true ∧
    (s.get (secretKey cluster "kibana-proxy")).isSome = true := by
  unfold missingCredential requirePresent at h
  cases h1 : s.get (secretKey cluster "kibana") with
  | none => rw [h1] at h; cases h
  | some o1 =>
    cases h2 : s.get (secretKey cluster "kibana-proxy") with
    | none => rw [h1, h2] at h; cases h
    | some o2 => exact ⟨rfl, rfl⟩

theorem reconcile_eq_of (env : Env) (cluster : Kibana) (client : Store)
    (proxy : Option Proxy) (fp : String) (hr : readPhase cluster client = none)
    (ht : trustFingerprint env cluster proxy client = .ok fp)
    (hm : missingCredential cluster
      (convergeAll (desiredBeforeWorkload env cluster) client).1 = none) :
    ReconcileKibana env cluster client proxy =
      removeDeprecated cluster (convergedStore env cluster fp client) := by
  have hw : convergeWorkload env cluster (.ok fp)
      (convergeAll (desiredBeforeWorkload env cluster) client).1
      = converge (newDeployment env cluster fp)
          (convergeAll (desiredBeforeWorkload env cluster) client).1 := by
    unfold convergeWorkload
    simp only
    rw [hm]
  unfold ReconcileKibana
  rw [hr]
  simp only
  rw [ht, andThen_of_ok _ _ _ (convergeAll_ok _ _),
    andThen_of_ok _ _ _ (by rw [hw]; exact converge_ok _ _), hw,
    andThen_of_ok _ _ _ (convergeAll_ok _ _)]
  rfl

/-- A successful reconciliation found the desired-state object, computed a fingerprint,
found the credential objects, converged every managed resource and ended with the
cleanup. -/
theorem reconcile_shape_of_ok (env : Env) (cluster : Kibana) (client : Store)
    (proxy : Option Proxy) (hok : (ReconcileKibana env cluster client proxy).2 = none) :
    ∃ fp, readPhase cluster client = none ∧
      trustFingerprint env cluster proxy client = .ok fp ∧
      missingCredential cluster
        (convergeAll (desiredBeforeWorkload env cluster) client).1 = none ∧
      ReconcileKibana env cluster client proxy =
        removeDeprecated cluster (convergedStore env cluster fp client) := by
  cases hr : readPhase cluster client with
  | some e =>
    unfold ReconcileKibana at hok
    rw [hr] at hok
    cases hok
  | none =>
    have hw : (convergeWorkload env cluster (trustFingerprint env cluster proxy client)
        (convergeAll (desiredBeforeWorkload env cluster) client).1).2 = none := by
      unfold ReconcileKibana at hok
      rw [hr] at hok
      simp only at hok
      rw [andThen_of_ok _ _ _ (convergeAll_ok _ _)] at hok
      exact andThen_ok_inv _ _ _ hok
    cases ht : trustFingerprint env cluster proxy client with
    | error e =>
      rw [ht] at hw
      cases hw
    | ok fp =>
      cases hm : missingCredential cluster
          (convergeAll (desiredBeforeWorkload env cluster) client).1 with
      | some e =>
        rw [ht] at hw
        unfold convergeWorkload at hw
        simp only at hw
        rw [hm] at hw
        cases hw
      | none => exact ⟨fp, rfl, rfl, rfl, reconcile_eq_of env cluster client proxy fp hr ht hm⟩

theorem trustFingerprint_of_bundle (env : Env) (cluster : Kibana) (proxy : Option Proxy)
    (s : Store) (bundle : Object) (h : s.get (trustBundleKey env cluster) = some bundle) :
    ∃ fp, trustFingerprint env cluster proxy s = .ok fp := by
  unfold trustFingerprint
  rw [h]
  cases customTrustSource cluster proxy s with
  | none => exact ⟨_, rfl⟩
  | some custom => exact ⟨_, rfl⟩

/-- With its dependencies in the store, a reconciliation succeeds. -/
theorem reconcile_ok_of_required (env : Env) (cluster : Kibana) (client : Store)
    (proxy : Option Proxy) (hreq : Required env cluster client) :
    (ReconcileKibana env cluster client proxy).2 = none := by
  obtain ⟨h1, h2, h3, h4⟩ := hreq
  obtain ⟨o1, h1⟩ := Option.isSome_iff_exists.mp h1
  obtain ⟨o4, h4⟩ := Option.isSome_iff_exists.mp h4
  have hr : readPhase cluster client = none := by
    simp [readPhase, requirePresent, h1]
  obtain ⟨fp, ht⟩ := trustFingerprint_of_bundle env cluster proxy client o4 h4
  have hm := missingCredential_none cluster
    (convergeAll (desiredBeforeWorkload env cluster) client).1
    (convergeAll_present _ _ _ h2) (convergeAll_present _ _ _ h3)
  rw [reconcile_eq_of env cluster client proxy fp hr ht hm]
  exact removeDeprecated_ok _ _

/-- C10. Deprecated-generation cleanup.  For every store that holds the desired-state
object, its two credential objects and the trust bundle, ReconcileKibana succeeds; and
after every successful ReconcileKibana the config map "sharing-config", the role
"sharing-config-reader" and the role binding
"openshift-logging-sharing-config-reader-binding" of the object's namespace are absent
from the store, whatever the store held before. -/
theorem reconcile_removes_deprecated (env : Env) (cluster : Kibana) (client : Store)
    (proxy : Option Proxy) :
    (Required env cluster client → (ReconcileKibana env cluster client proxy).2 = none) ∧
    ((ReconcileKibana env cluster client proxy).2 = none →
      (ReconcileKibana env cluster client proxy).1.get (sharingConfigKey cluster) = none ∧
      (ReconcileKibana env cluster client proxy).1.get (sharingConfigReaderKey cluster)
        = none ∧
      (ReconcileKibana env cluster client proxy).1.get
        (sharingConfigReaderBindingKey cluster) = none) := by
  refine ⟨reconcile_ok_of_required env cluster client proxy, ?_⟩
  intro hok
  obtain ⟨fp, _, _, _, hs⟩ := reconcile_shape_of_ok env cluster client proxy hok
  rw [hs]
  exact removeDeprecated_absent cluster _

theorem reconcile_removes_deprecated_witness :
    Required sampleEnv cluster (existingClient sampleEnv) ∧
    (existingClient sampleEnv).get (sharingConfigKey cluster) ≠ none ∧
    (ReconcileKibana sampleEnv cluster (existingClient sampleEnv) none).2 = none ∧
    (ReconcileKibana sampleEnv cluster (existingClient sampleEnv) none).1.get
      (sharingConfigKey cluster) = none ∧
    (ReconcileKibana sampleEnv cluster (existingClient sampleEnv) none).1.get
      (sharingConfigReaderKey cluster) = none ∧
    (ReconcileKibana sampleEnv cluster (existingClient sampleEnv) none).1.get
      (sharingConfigReaderBindingKey cluster) = none :=
  ⟨by decide, by decide,
    (reconcile_removes_deprecated sampleEnv cluster (existingClient sampleEnv) none).1
      (by decide),
    (reconcile_removes_deprecated sampleEnv cluster (existingClient sampleEnv) none).2
      ((reconcile_removes_deprecated sampleEnv cluster (existingClient sampleEnv) none).1
        (by decide))⟩

/-! ## Linkage records -/

theorem list_nil_of_no_kind (s : Store) (k : ObjectKey)
    (h : ∀ o ∈ s.objects, o.key.kind ≠ k.kind) : s.list k = [] := by
  unfold Store.list
  rw [List.filter_eq_nil_iff]
  intro o ho hk
  exact h o ho (congrArg ObjectKey.kind (of_decide_eq_true hk))

theorem convergedStore_eq (env : Env) (cluster : Kibana) (fp : String) (s : Store) :
    convergedStore env cluster fp s =
      (converge (newConsoleLink cluster env.InfraLogsConsoleLinkName)
        (converge (newConsoleLink cluster env.AppLogsConsoleLinkName)
          (converge (newManaged .RoleBinding cluster (env.accessBinding cluster))
            (converge (newDeployment env cluster fp)
              (convergeAll (desiredBeforeWorkload env cluster) s).1).1).1).1).1 := by
  unfold convergedStore desiredAfterWorkload
  rw [convergeAll_cons, convergeAll_cons, convergeAll_cons]
  rfl

/-- The list of objects under the key of a linkage record is the same before the first
linkage record is converged as when the reconciliation started. -/
theorem list_before_links (env : Env) (cluster : Kibana) (fp : String) (s : Store)
    (name : String) :
    (converge (newManaged .RoleBinding cluster (env.accessBinding cluster))
      (converge (newDeployment env cluster fp)
        (convergeAll (desiredBeforeWorkload env cluster) s).1).1).1.list
        (newConsoleLink cluster name).key
      = s.list (newConsoleLink cluster name).key := by
  rw [converge_list_other _ _ _ (key_ne_of_kind _ _ (by intro hk; cases hk)),
    converge_list_other _ _ _ (key_ne_of_kind _ _ (by intro hk; cases hk)),
    convergeAll_list_other _ _ _ (ne_before_of_kind env cluster _ (by intro hk; cases hk)
      (by intro hk; cases hk))]

/-- The lists of linkage records after the two linkage steps and the cleanup, on a
store that holds none under the two names. -/
theorem links_created (env : Env) (cluster : Kibana) (s : Store)
    (happ : s.list (newConsoleLink cluster env.AppLogsConsoleLinkName).key = [])
    (hinfra : s.list (newConsoleLink cluster env.InfraLogsConsoleLinkName).key = []) :
    (removeDeprecated cluster
      (converge (newConsoleLink cluster env.InfraLogsConsoleLinkName)
        (converge (newConsoleLink cluster env.AppLogsConsoleLinkName) s).1).1).1.list
        (newConsoleLink cluster env.AppLogsConsoleLinkName).key
      = [newConsoleLink cluster env.AppLogsConsoleLinkName] ∧
    (removeDeprecated cluster
      (converge (newConsoleLink cluster env.InfraLogsConsoleLinkName)
        (converge (newConsoleLink cluster env.AppLogsConsoleLinkName) s).1).1).1.list
        (newConsoleLink cluster env.InfraLogsConsoleLinkName).key
      = [newConsoleLink cluster env.InfraLogsConsoleLinkName] := by
  have hBa := converge_list_create (newConsoleLink cluster env.AppLogsConsoleLinkName) s happ
  rw [removeDeprecated_list_other cluster _ _ (key_ne_of_kind _ _ (by intro hk; cases hk))
      (key_ne_of_kind _ _ (by intro hk; cases hk)) (key_ne_of_kind _ _ (by intro hk; cases hk)),
    removeDeprecated_list_other cluster _ _ (key_ne_of_kind _ _ (by intro hk; cases hk))
      (key_ne_of_kind _ _ (by intro hk; cases hk)) (key_ne_of_kind _ _ (by intro hk; cases hk))]
  by_cases hk : (newConsoleLink cluster env.InfraLogsConsoleLinkName).key
      = (newConsoleLink cluster env.AppLogsConsoleLinkName).key
  · have hn : env.InfraLogsConsoleLinkName = env.AppLogsConsoleLinkName :=
      newConsoleLink_key_inj cluster _ _ hk
    rw [hn, converge_fixed _ _ (converged_of_list _ _ hBa)]
    exact ⟨hBa, hBa⟩
  · have hBi : (converge (newConsoleLink cluster env.AppLogsConsoleLinkName) s).1.list
        (newConsoleLink cluster env.InfraLogsConsoleLinkName).key = [] := by
      rw [converge_list_other _ _ _ hk]; exact hinfra
    constructor
    · rw [converge_list_other _ _ _ (Ne.symm hk)]; exact hBa
    · exact converge_list_create _ _ hBi

/-- The same lists on a store that already holds exactly the two desired records:
every step leaves them alone. -/
theorem links_kept (env : Env) (cluster : Kibana) (s : Store)
    (happ : s.list (newConsoleLink cluster env.AppLogsConsoleLinkName).key
      = [newConsoleLink cluster env.AppLogsConsoleLinkName])
    (hinfra : s.list (newConsoleLink cluster env.InfraLogsConsoleLinkName).key
      = [newConsoleLink cluster env.InfraLogsConsoleLinkName]) :
    (removeDeprecated cluster
      (converge (newConsoleLink cluster env.InfraLogsConsoleLinkName)
        (converge (newConsoleLink cluster env.AppLogsConsoleLinkName) s).1).1).1.list
        (newConsoleLink cluster env.AppLogsConsoleLinkName).key
      = [newConsoleLink cluster env.AppLogsConsoleLinkName] ∧
    (removeDeprecated cluster
      (converge (newConsoleLink cluster env.InfraLogsConsoleLinkName)
        (converge (newConsoleLink cluster env.AppLogsConsoleLinkName) s).1).1).1.list
        (newConsoleLink cluster env.InfraLogsConsoleLinkName).key
      = [newConsoleLink cluster env.InfraLogsConsoleLinkName] := by
  rw [removeDeprecated_list_other cluster _ _ (key_ne_of_kind _ _ (by intro hk; cases hk))
      (key_ne_of_kind _ _ (by intro hk; cases hk)) (key_ne_of_kind _ _ (by intro hk; cases hk)),
    removeDeprecated_list_other cluster _ _ (key_ne_of_kind _ _ (by intro hk; cases hk))
      (key_ne_of_kind _ _ (by intro hk; cases hk)) (key_ne_of_kind _ _ (by intro hk; cases hk)),
    converge_fixed _ _ (converged_of_list _ _ happ),
    converge_fixed _ _ (converged_of_list _ _ hinfra)]
  exact ⟨happ, hinfra⟩

/-- C12. Linkage creation and idempotence.  With its dependencies in the store a
reconciliation succeeds.  After a successful reconciliation of a store without console
links, the store holds exactly one console link named AppLogsConsoleLinkName and
exactly one named InfraLogsConsoleLinkName, each the expected object: owned by the
Kibana object, located in the ApplicationMenu, section "Monitoring", text "Logging".
After a successful reconciliation of a store that already holds exactly these two
links, it still holds exactly them, unchanged. -/
theorem reconcile_console_links (env : Env) (cluster : Kibana) (client : Store)
    (proxy : Option Proxy) :
    (Required env cluster client → (ReconcileKibana env cluster client proxy).2 = none) ∧
    ((ReconcileKibana env cluster client proxy).2 = none →
      (∀ o ∈ client.objects, o.key.kind ≠ Kind.ConsoleLink) →
      (ReconcileKibana env cluster client proxy).1.list
          (consoleLinkKey env.AppLogsConsoleLinkName)
        = [newConsoleLink cluster env.AppLogsConsoleLinkName] ∧
      (ReconcileKibana env cluster client proxy).1.list
          (consoleLinkKey env.InfraLogsConsoleLinkName)
        = [newConsoleLink cluster env.InfraLogsConsoleLinkName]) ∧
    ((ReconcileKibana env cluster client proxy).2 = none →
      client.list (consoleLinkKey env.AppLogsConsoleLinkName)
        = [newConsoleLink cluster env.AppLogsConsoleLinkName] →
      client.list (consoleLinkKey env.InfraLogsConsoleLinkName)
        = [newConsoleLink cluster env.InfraLogsConsoleLinkName] →
      (ReconcileKibana env cluster client proxy).1.list
          (consoleLinkKey env.AppLogsConsoleLinkName)
        = [newConsoleLink cluster env.AppLogsConsoleLinkName] ∧
      (ReconcileKibana env cluster client proxy).1.list
          (consoleLinkKey env.InfraLogsConsoleLinkName)
        = [newConsoleLink cluster env.InfraLogsConsoleLinkName]) ∧
    (∀ name : String,
      (newConsoleLink cluster name).key = ⟨Kind.ConsoleLink, "", name⟩ ∧
      (newConsoleLink cluster name).owners = [kibanaKey cluster] ∧
      (newConsoleLink cluster name).data.lookup "location" = some "ApplicationMenu" ∧
      (newConsoleLink cluster name).data.lookup "section" = some "Monitoring" ∧
      (newConsoleLink cluster name).data.lookup "text" = some "Logging") := by
  refine ⟨reconcile_ok_of_required env cluster client proxy, ?_, ?_, ?_⟩
  · intro hok hno
    obtain ⟨fp, _, _, _, h⟩ := reconcile_shape_of_ok env cluster client proxy hok
    rw [h, convergedStore_eq]
    refine links_created env cluster _ ?_ ?_
    · rw [list_before_links]; exact list_nil_of_no_kind client _ hno
    · rw [list_before_links]; exact list_nil_of_no_kind client _ hno
  · intro hok happ hinfra
    obtain ⟨fp, _, _, _, h⟩ := reconcile_shape_of_ok env cluster client proxy hok
    rw [h, convergedStore_eq]
    refine links_kept env cluster _ ?_ ?_
    · rw [list_before_links]; exact happ
    · rw [list_before_links]; exact hinfra
  · intro name
    exact ⟨rfl, rfl, rfl, rfl, rfl⟩

theorem reconcile_console_links_witness :
    Required sampleEnv cluster (freshClient sampleEnv) ∧
    (∀ o ∈ (freshClient sampleEnv).objects, o.key.kind ≠ Kind.ConsoleLink) ∧
    (ReconcileKibana sampleEnv cluster (freshClient sampleEnv) (some proxy)).1.list
        (consoleLinkKey sampleEnv.AppLogsConsoleLinkName)
      = [consoleLogsLink sampleEnv.AppLogsConsoleLinkName] ∧
    (ReconcileKibana sampleEnv cluster (freshClient sampleEnv) (some proxy)).1.list
        (consoleLinkKey sampleEnv.InfraLogsConsoleLinkName)
      = [consoleLogsLink sampleEnv.InfraLogsConsoleLinkName] :=
  ⟨by decide, by decide,
    (reconcile_console_links sampleEnv cluster (freshClient sampleEnv) (some proxy)).2.1
      ((reconcile_console_links sampleEnv cluster (freshClient sampleEnv) (some proxy)).1
        (by decide)) (by decide)⟩

/-! ## Idempotence -/

theorem trustKeys_kind (env : Env) (cluster : Kibana) (proxy : Option Proxy) (k : ObjectKey)
    (h : k ∈ trustKeys env cluster proxy) : k.kind = Kind.ConfigMap := by
  unfold trustKeys at h
  cases proxy with
  | none =>
    simp only [List.mem_singleton] at h
    rw [h]; rfl
  | some p =>
    simp only [List.mem_cons, List.mem_singleton, List.not_mem_nil, or_false] at h
    rcases h with h | h <;> rw [h] <;> rfl

theorem trustFingerprint_congr (env : Env) (cluster : Kibana) (proxy : Option Proxy)
    (s s' : Store) (h : ∀ k ∈ trustKeys env cluster proxy, s'.get k = s.get k) :
    trustFingerprint env cluster proxy s' = trustFingerprint env cluster proxy s := by
  cases proxy with
  | none =>
    have h1 := h (trustBundleKey env cluster) (by simp [trustKeys])
    simp only [trustFingerprint, customTrustSource, h1]
  | some p =>
    have h1 := h (trustBundleKey env cluster) (by simp [trustKeys])
    have h2 := h (customTrustKey cluster p) (by simp [trustKeys])
    simp only [trustFingerprint, customTrustSource, h1, h2]

theorem before_compatible (env : Env) (cluster : Kibana)
    (h : ∀ a ∈ env.credentialObjects cluster, ∀ b ∈ env.credentialObjects cluster,
      a.Name = b.Name → a = b) :
    ∀ a ∈ desiredBeforeWorkload env cluster, ∀ b ∈ desiredBeforeWorkload env cluster,
      a.key = b.key → a = b := by
  intro a ha b hb hk
  rcases before_key env cluster a ha with rfl | ⟨m, hm, rfl⟩ <;>
    rcases before_key env cluster b hb with rfl | ⟨n, hn, rfl⟩
  · rfl
  · exact absurd (congrArg ObjectKey.kind hk) (by intro e; cases e)
  · exact absurd (congrArg ObjectKey.kind hk) (by intro e; cases e)
  · have hname : m.Name = n.Name := congrArg ObjectKey.Name hk
    rw [h m hm n hn hname]

theorem after_compatible (env : Env) (cluster : Kibana) :
    ∀ a ∈ desiredAfterWorkload env cluster, ∀ b ∈ desiredAfterWorkload env cluster,
      a.key = b.key → a = b := by
  intro a ha b hb hk
  rcases after_key env cluster a ha with rfl | rfl | rfl <;>
    rcases after_key env cluster b hb with rfl | rfl | rfl
  · rfl
  · exact absurd (congrArg ObjectKey.kind hk) (by intro e; cases e)
  · exact absurd (congrArg ObjectKey.kind hk) (by intro e; cases e)
  · exact absurd (congrArg ObjectKey.kind hk) (by intro e; cases e)
  · rfl
  · rw [newConsoleLink_key_inj cluster _ _ hk]
  · exact absurd (congrArg ObjectKey.kind hk) (by intro e; cases e)
  · rw [newConsoleLink_key_inj cluster _ _ hk]
  · rfl

/-- After step 3 every managed resource is in the state Converged. -/
theorem convergedStore_converged (env : Env) (cluster : Kibana) (fp : String) (s : Store)
    (h : ∀ a ∈ env.credentialObjects cluster, ∀ b ∈ env.credentialObjects cluster,
      a.Name = b.Name → a = b) :
    (∀ w ∈ desiredBeforeWorkload env cluster, Converged (convergedStore env cluster fp s) w) ∧
    Converged (convergedStore env cluster fp s) (newDeployment env cluster fp) ∧
    (∀ w ∈ desiredAfterWorkload env cluster, Converged (convergedStore env cluster fp s) w) := by
  refine ⟨?_, ?_, ?_⟩
  · intro w hw
    have hA := convergeAll_converged (desiredBeforeWorkload env cluster) s
      (before_compatible env cluster h) w hw
    refine converged_of_get_eq _ _ w ?_ hA
    unfold convergedStore
    rw [convergeAll_get_other _ _ _ (by
        intro b hb e
        rcases before_kind env cluster w hw with hk | hk <;>
          rcases after_kind env cluster b hb with hb' | hb' <;>
          rw [e, hb'] at hk <;> cases hk),
      converge_get_other _ _ _ (by
        intro e
        rcases before_kind env cluster w hw with hk | hk <;> rw [e] at hk <;> cases hk)]
  · have hB := converge_converged (newDeployment env cluster fp)
      (convergeAll (desiredBeforeWorkload env cluster) s).1
    refine converged_of_get_eq _ _ _ ?_ hB
    unfold convergedStore
    rw [convergeAll_get_other _ _ _ (ne_after_of_kind env cluster _ (by intro e; cases e)
      (by intro e; cases e))]
  · intro w hw
    exact convergeAll_converged (desiredAfterWorkload env cluster) _
      (after_compatible env cluster) w hw

theorem convergedStore_fixed (env : Env) (cluster : Kibana) (fp : String) (s : Store)
    (hb : ∀ w ∈ desiredBeforeWorkload env cluster, Converged s w)
    (hd : Converged s (newDeployment env cluster fp))
    (ha : ∀ w ∈ desiredAfterWorkload env cluster, Converged s w) :
    convergedStore env cluster fp s = s := by
  unfold convergedStore
  rw [convergeAll_fixed _ _ hb, converge_fixed _ _ hd, convergeAll_fixed _ _ ha]

/-- A second reconciliation of the store that a successful one leaves changes nothing. -/
theorem reconcile_twice (env : Env) (cluster : Kibana) (client : Store)
    (proxy : Option Proxy) (hnames : NamesApart env cluster proxy)
    (hok : (ReconcileKibana env cluster client proxy).2 = none) :
    ReconcileKibana env cluster (ReconcileKibana env cluster client proxy).1 proxy
      = ((ReconcileKibana env cluster client proxy).1, none) := by
  obtain ⟨htrust, hconfig, hbinding, hcreds⟩ := hnames
  obtain ⟨fp, hr, ht, hm, h⟩ := reconcile_shape_of_ok env cluster client proxy hok
  obtain ⟨hcb, hcd, hca⟩ := convergedStore_converged env cluster fp client hcreds
  rw [h]
  -- the store that the cleanup leaves
  have habs := removeDeprecated_absent cluster (convergedStore env cluster fp client)
  have hget : ∀ k : ObjectKey, k ≠ sharingConfigKey cluster → k.kind ≠ Kind.Role →
      k ≠ sharingConfigReaderBindingKey cluster →
      (removeDeprecated cluster (convergedStore env cluster fp client)).1.get k
        = (convergedStore env cluster fp client).get k :=
    fun k h1 h2 h3 => removeDeprecated_get_other cluster _ k h1 (key_ne_of_kind _ _ h2) h3
  -- step 1 of the second run
  have hr2 : readPhase cluster (removeDeprecated cluster
      (convergedStore env cluster fp client)).1 = none := by
    unfold readPhase requirePresent at hr ⊢
    rw [hget _ (key_ne_of_kind _ _ (by intro e; cases e)) (by intro e; cases e)
        (key_ne_of_kind _ _ (by intro e; cases e)),
      convergedStore_get_other env cluster fp client _
        (ne_before_of_kind env cluster _ (by intro e; cases e) (by intro e; cases e))
        (by intro e; cases e)
        (ne_after_of_kind env cluster _ (by intro e; cases e) (by intro e; cases e))]
    exact hr
  -- step 2 of the second run
  have ht2 : trustFingerprint env cluster proxy (removeDeprecated cluster
      (convergedStore env cluster fp client)).1 = .ok fp := by
    rw [trustFingerprint_congr env cluster proxy client _ ?_]
    · exact ht
    · intro k hk
      have hkind := trustKeys_kind env cluster proxy k hk
      rw [hget k (htrust k hk).1 (by rw [hkind]; intro e; cases e)
          (key_ne_of_kind _ _ (by rw [hkind]; intro e; cases e)),
        convergedStore_get_other env cluster fp client k ?_
          (by rw [hkind]; intro e; cases e)
          (ne_after_of_kind env cluster _ (by rw [hkind]; intro e; cases e)
            (by rw [hkind]; intro e; cases e))]
      intro w hw
      rcases before_key env cluster w hw with rfl | ⟨m, _, rfl⟩
      · exact (htrust k hk).2
      · exact key_ne_of_kind _ _ (by rw [hkind]; intro e; cases e)
  -- step 3 of the second run finds every resource converged
  have hcb2 : ∀ w ∈ desiredBeforeWorkload env cluster,
      Converged (removeDeprecated cluster (convergedStore env cluster fp client)).1 w := by
    intro w hw
    refine converged_of_get_eq _ _ w ?_ (hcb w hw)
    rcases before_key env cluster w hw with rfl | ⟨m, _, rfl⟩
    · exact hget _ hconfig (by intro e; cases e) (key_ne_of_kind _ _ (by intro e; cases e))
    · exact hget _ (key_ne_of_kind _ _ (by intro e; cases e)) (by intro e; cases e)
        (key_ne_of_kind _ _ (by intro e; cases e))
  have hcd2 : Converged (removeDeprecated cluster (convergedStore env cluster fp client)).1
      (newDeployment env cluster fp) :=
    converged_of_get_eq _ _ _
      (hget _ (key_ne_of_kind _ _ (by intro e; cases e)) (by intro e; cases e)
        (key_ne_of_kind _ _ (by intro e; cases e))) hcd
  have hca2 : ∀ w ∈ desiredAfterWorkload env cluster,
      Converged (removeDeprecated cluster (convergedStore env cluster fp client)).1 w := by
    intro w hw
    refine converged_of_get_eq _ _ w ?_ (hca w hw)
    rcases after_key env cluster w hw with rfl | rfl | rfl
    · exact hget _ (key_ne_of_kind _ _ (by intro e; cases e)) (by intro e; cases e) hbinding
    · exact hget _ (key_ne_of_kind _ _ (by intro e; cases e)) (by intro e; cases e)
        (key_ne_of_kind _ _ (by intro e; cases e))
    · exact hget _ (key_ne_of_kind _ _ (by intro e; cases e)) (by intro e; cases e)
        (key_ne_of_kind _ _ (by intro e; cases e))
  -- the credential objects are still there
  have hm2 : missingCredential cluster (removeDeprecated cluster
      (convergedStore env cluster fp client)).1 = none := by
    obtain ⟨p1, p2⟩ := missingCredential_present cluster _ hm
    apply missingCredential_none
    · rw [hget _ (key_ne_of_kind _ _ (by intro e; cases e)) (by intro e; cases e)
        (key_ne_of_kind _ _ (by intro e; cases e))]
      unfold convergedStore
      exact convergeAll_present _ _ _ (converge_present _ _ _ p1)
    · rw [hget _ (key_ne_of_kind _ _ (by intro e; cases e)) (by intro e; cases e)
        (key_ne_of_kind _ _ (by intro e; cases e))]
      unfold convergedStore
      exact convergeAll_present _ _ _ (converge_present _ _ _ p2)
  rw [reconcile_eq_of env cluster _ proxy fp hr2 ht2
    (by rw [convergeAll_fixed _ _ hcb2]; exact hm2),
    convergedStore_fixed env cluster fp _ hcb2 hcd2 hca2]
  exact removeDeprecated_fixed cluster _ habs.1 habs.2.1 habs.2.2

/-- C13. Reconcile idempotence.  With its dependencies in the store a reconciliation
succeeds; and whenever a reconciliation succeeds, a second one on the store it leaves
succeeds too, leaves the same objects and applies no write.  (The names the reconciler
works with keep apart: it writes no object that it reads trust material from, it
converges no object of the deprecated generation, and credential objects of one name
are one object.) -/
theorem reconcile_idempotent (env : Env) (cluster : Kibana) (client : Store)
    (proxy : Option Proxy) (hnames : NamesApart env cluster proxy) :
    (Required env cluster client → (ReconcileKibana env cluster client proxy).2 = none) ∧
    ((ReconcileKibana env cluster client proxy).2 = none →
      (ReconcileKibana env cluster (ReconcileKibana env cluster client proxy).1 proxy).2
        = none ∧
      (ReconcileKibana env cluster (ReconcileKibana env cluster client proxy).1 proxy).1
        = (ReconcileKibana env cluster client proxy).1 ∧
      (ReconcileKibana env cluster (ReconcileKibana env cluster client proxy).1 proxy).1.objects
        = (ReconcileKibana env cluster client proxy).1.objects ∧
      (ReconcileKibana env cluster (ReconcileKibana env cluster client proxy).1 proxy).1.writes
        = (ReconcileKibana env cluster client proxy).1.writes) := by
  refine ⟨reconcile_ok_of_required env cluster client proxy, ?_⟩
  intro hok
  rw [reconcile_twice env cluster client proxy hnames hok]
  exact ⟨rfl, rfl, rfl, rfl⟩

theorem reconcile_idempotent_witness :
    NamesApart sampleEnv cluster (some proxy) ∧
    Required sampleEnv cluster (existingClient sampleEnv) ∧
    (ReconcileKibana sampleEnv cluster (existingClient sampleEnv) (some proxy)).1.writes = 7 ∧
    (ReconcileKibana sampleEnv cluster
      (ReconcileKibana sampleEnv cluster (existingClient sampleEnv) (some proxy)).1
      (some proxy)).1.writes
      = (ReconcileKibana sampleEnv cluster (existingClient sampleEnv) (some proxy)).1.writes :=
  ⟨by decide, by decide, by decide,
    ((reconcile_idempotent sampleEnv cluster (existingClient sampleEnv) (some proxy)
      (by decide)).2
      ((reconcile_idempotent sampleEnv cluster (existingClient sampleEnv) (some proxy)
        (by decide)).1 (by decide))).2.2.2⟩

/-! ## Fingerprint propagation -/

theorem Store.update_get (s s' : Store) (o : Object) (h : s.update o = .ok s') :
    s'.get o.key = some o ∧ ∀ k, k ≠ o.key → s'.get k = s.get k := by
  unfold Store.update at h
  cases hg : s.get o.key with
  | none => rw [hg] at h; cases h
  | some cur =>
    rw [hg] at h
    simp only [Except.ok.injEq] at h
    subst h
    exact ⟨find_map_self s.objects o cur o.key rfl hg,
      fun k hk => find_map_other s.objects o k o.key hk rfl⟩

theorem convergedStore_workload (env : Env) (cluster : Kibana) (fp : String) (s : Store) :
    Converged (convergedStore env cluster fp s) (newDeployment env cluster fp) := by
  have hB := converge_converged (newDeployment env cluster fp)
    (convergeAll (desiredBeforeWorkload env cluster) s).1
  refine converged_of_get_eq _ _ _ ?_ hB
  unfold convergedStore
  rw [convergeAll_get_other _ _ _ (ne_after_of_kind env cluster _ (by intro e; cases e)
    (by intro e; cases e))]

/-- After a successful reconciliation the workload carries the fingerprint that step 2
computed from the store the reconciliation started on. -/
theorem reconcile_hash (env : Env) (cluster : Kibana) (client : Store)
    (proxy : Option Proxy) (hok : (ReconcileKibana env cluster client proxy).2 = none) :
    ∃ fp, trustFingerprint env cluster proxy client = .ok fp ∧
      trustedCABundleHash env cluster (ReconcileKibana env cluster client proxy).1
        = some fp := by
  obtain ⟨fp, _, ht, _, h⟩ := reconcile_shape_of_ok env cluster client proxy hok
  refine ⟨fp, ht, ?_⟩
  obtain ⟨cur, hg, _, hann, _⟩ := convergedStore_workload env cluster fp client
  have hg' : (ReconcileKibana env cluster client proxy).1.get (deploymentKey env cluster)
      = some cur := by
    rw [h, removeDeprecated_get_other cluster _ _ (key_ne_of_kind _ _ (by intro e; cases e))
      (key_ne_of_kind _ _ (by intro e; cases e)) (key_ne_of_kind _ _ (by intro e; cases e))]
    exact hg
  unfold trustedCABundleHash
  rw [hg']
  simp only
  rw [hann]
  simp [newDeployment, List.lookup]

/-- A successful reconciliation leaves the desired-state object and the credential
objects in the store. -/
theorem reconcile_keeps_dependencies (env : Env) (cluster : Kibana) (client : Store)
    (proxy : Option Proxy) (hok : (ReconcileKibana env cluster client proxy).2 = none) :
    ((ReconcileKibana env cluster client proxy).1.get (kibanaKey cluster)).isSome = true ∧
    ((ReconcileKibana env cluster client proxy).1.get (secretKey cluster "kibana")).isSome
      = true ∧
    ((ReconcileKibana env cluster client proxy).1.get
      (secretKey cluster "kibana-proxy")).isSome = true := by
  obtain ⟨fp, hr, _, hm, h⟩ := reconcile_shape_of_ok env cluster client proxy hok
  obtain ⟨p1, p2⟩ := missingCredential_present cluster _ hm
  rw [h]
  refine ⟨?_, ?_, ?_⟩
  · rw [removeDeprecated_get_other cluster _ _ (key_ne_of_kind _ _ (by intro e; cases e))
        (key_ne_of_kind _ _ (by intro e; cases e)) (key_ne_of_kind _ _ (by intro e; cases e)),
      convergedStore_get_other env cluster fp client _
        (ne_before_of_kind env cluster _ (by intro e; cases e) (by intro e; cases e))
        (by intro e; cases e)
        (ne_after_of_kind env cluster _ (by intro e; cases e) (by intro e; cases e))]
    unfold readPhase requirePresent at hr
    cases hg : client.get (kibanaKey cluster) with
    | none => rw [hg] at hr; cases hr
    | some o => rfl
  · rw [removeDeprecated_get_other cluster _ _ (key_ne_of_kind _ _ (by intro e; cases e))
        (key_ne_of_kind _ _ (by intro e; cases e)) (key_ne_of_kind _ _ (by intro e; cases e))]
    unfold convergedStore
    exact convergeAll_present _ _ _ (converge_present _ _ _ p1)
  · rw [removeDeprecated_get_other cluster _ _ (key_ne_of_kind _ _ (by intro e; cases e))
        (key_ne_of_kind _ _ (by intro e; cases e)) (key_ne_of_kind _ _ (by intro e; cases e))]
    unfold convergedStore
    exact convergeAll_present _ _ _ (converge_present _ _ _ p2)

theorem required_after_update (env : Env) (cluster : Kibana) (client client' : Store)
    (proxy : Option Proxy) (bundle : Object)
    (hok : (ReconcileKibana env cluster client proxy).2 = none)
    (hkey : bundle.key = trustBundleKey env cluster)
    (hupd : (ReconcileKibana env cluster client proxy).1.update bundle = .ok client') :
    Required env cluster client' ∧ client'.get (trustBundleKey env cluster) = some bundle := by
  obtain ⟨hself, hother⟩ := Store.update_get _ _ _ hupd
  rw [hkey] at hself hother
  obtain ⟨h1, h2, h3⟩ := reconcile_keeps_dependencies env cluster client proxy hok
  refine ⟨⟨?_, ?_, ?_, ?_⟩, hself⟩
  · rw [hother _ (key_ne_of_kind _ _ (by intro hk; cases hk))]; exact h1
  · rw [hother _ (key_ne_of_kind _ _ (by intro hk; cases hk))]; exact h2
  · rw [hother _ (key_ne_of_kind _ _ (by intro hk; cases hk))]; exact h3
  · rw [hself]; rfl

theorem trustFingerprint_plain (env : Env) (cluster : Kibana) (proxy : Option Proxy)
    (s : Store) (bundle : Object) (h : s.get (trustBundleKey env cluster) = some bundle)
    (hc : customTrustSource cluster proxy s = none) :
    trustFingerprint env cluster proxy s = .ok (calcTrustedCAHashValue env bundle) := by
  unfold trustFingerprint
  rw [h, hc]

theorem trustFingerprint_merged (env : Env) (cluster : Kibana) (proxy : Option Proxy)
    (s : Store) (bundle custom : Object)
    (h : s.get (trustBundleKey env cluster) = some bundle)
    (hc : customTrustSource cluster proxy s = some custom) :
    trustFingerprint env cluster proxy s
      = .ok (env.digest (env.mergeTrust (trustPayload env bundle)
          (trustPayload env custom))) := by
  unfold trustFingerprint
  rw [h, hc]

/-- C11, as stated, fails in two ways.  With a readable custom trust source behind the
proxy configuration, the annotation after a successful reconciliation is the
fingerprint of the merged trust material: neither calcTrustedCAHashValue of the bundle
in the store nor that of the custom source.  And with a digest that gives the payloads A and B of the test the same
fingerprint, the annotation after the bundle was changed from A to B and reconciled
again still equals the fingerprint of A. -/
theorem fingerprint_propagation_fails :
    (Required sampleEnv cluster (customSourceClient sampleEnv) ∧
      (customSourceClient sampleEnv).get (trustBundleKey sampleEnv cluster)
        = some (kibanaCABundle sampleEnv) ∧
      (ReconcileKibana sampleEnv cluster (customSourceClient sampleEnv) (some proxy)).2
        = none ∧
      trustedCABundleHash sampleEnv cluster
          (ReconcileKibana sampleEnv cluster (customSourceClient sampleEnv) (some proxy)).1
        ≠ some (calcTrustedCAHashValue sampleEnv (kibanaCABundle sampleEnv)) ∧
      trustedCABundleHash sampleEnv cluster
          (ReconcileKibana sampleEnv cluster (customSourceClient sampleEnv) (some proxy)).1
        ≠ some (calcTrustedCAHashValue sampleEnv (customTrustBundle sampleEnv))) ∧
    (Required prefixEnv cluster (freshClient prefixEnv) ∧
      trustPayload prefixEnv (kibanaCABundle prefixEnv)
        ≠ trustPayload prefixEnv (injectedCABundle prefixEnv) ∧
      (ReconcileKibana prefixEnv cluster (freshClient prefixEnv) (some proxy)).1.update
          (injectedCABundle prefixEnv) = .ok (injectedClient prefixEnv) ∧
      (ReconcileKibana prefixEnv cluster (injectedClient prefixEnv) (some proxy)).2 = none ∧
      trustedCABundleHash prefixEnv cluster
          (ReconcileKibana prefixEnv cluster (injectedClient prefixEnv) (some proxy)).1
        = some (calcTrustedCAHashValue prefixEnv (kibanaCABundle prefixEnv))) :=
  ⟨⟨by decide, by decide, by decide, by decide, by decide⟩,
    ⟨by decide, by decide, rfl, by decide, by decide⟩⟩

/-- C11, amended.  Fingerprint propagation.  On a store that holds the dependencies of
the reconciliation, with trust bundle A, ReconcileKibana succeeds and the deployment's
pod-template annotation TrustedCABundleHashName equals the fingerprint of the trust
material read in that run: calcTrustedCAHashValue of A when the proxy configuration
references no readable custom trust source, and the digest of A's payload merged with
the custom source's otherwise.  When the bundle is then updated to B and
ReconcileKibana runs again, it succeeds; with no readable custom trust source the
annotation equals the fingerprint of B, and it differs from the fingerprint of A
exactly when the fingerprints of A and B differ. -/
theorem fingerprint_propagation (env : Env) (cluster : Kibana) (client client' : Store)
    (proxy : Option Proxy) (bundleA bundleB : Object)
    (hreq : Required env cluster client)
    (hA : client.get (trustBundleKey env cluster) = some bundleA)
    (hkey : bundleB.key = trustBundleKey env cluster)
    (hupd : (ReconcileKibana env cluster client proxy).1.update bundleB = .ok client') :
    (ReconcileKibana env cluster client proxy).2 = none ∧
    (customTrustSource cluster proxy client = none →
      trustedCABundleHash env cluster (ReconcileKibana env cluster client proxy).1
        = some (calcTrustedCAHashValue env bundleA)) ∧
    (∀ custom, customTrustSource cluster proxy client = some custom →
      trustedCABundleHash env cluster (ReconcileKibana env cluster client proxy).1
        = some (env.digest (env.mergeTrust (trustPayload env bundleA)
            (trustPayload env custom)))) ∧
    (ReconcileKibana env cluster client' proxy).2 = none ∧
    (customTrustSource cluster proxy client' = none →
      trustedCABundleHash env cluster (ReconcileKibana env cluster client' proxy).1
        = some (calcTrustedCAHashValue env bundleB) ∧
      (trustedCABundleHash env cluster (ReconcileKibana env cluster client' proxy).1
          ≠ some (calcTrustedCAHashValue env bundleA) ↔
        calcTrustedCAHashValue env bundleB ≠ calcTrustedCAHashValue env bundleA)) := by
  have hok := reconcile_ok_of_required env cluster client proxy hreq
  obtain ⟨fp, ht, hh⟩ := reconcile_hash env cluster client proxy hok
  obtain ⟨hreq', hB⟩ := required_after_update env cluster client client' proxy bundleB hok
    hkey hupd
  have hok' := reconcile_ok_of_required env cluster client' proxy hreq'
  obtain ⟨fp', ht', hh'⟩ := reconcile_hash env cluster client' proxy hok'
  refine ⟨hok, ?_, ?_, hok', ?_⟩
  · intro hc
    rw [trustFingerprint_plain env cluster proxy client bundleA hA hc] at ht
    rw [hh, ← Except.ok.inj ht]
  · intro custom hc
    rw [trustFingerprint_merged env cluster proxy client bundleA custom hA hc] at ht
    rw [hh, ← Except.ok.inj ht]
  · intro hc
    rw [trustFingerprint_plain env cluster proxy client' bundleB hB hc] at ht'
    have hval : trustedCABundleHash env cluster (ReconcileKibana env cluster client' proxy).1
        = some (calcTrustedCAHashValue env bundleB) := by
      rw [hh', ← Except.ok.inj ht']
    refine ⟨hval, ?_⟩
    rw [hval]
    constructor
    · intro h e; exact h (congrArg some e)
    · intro h e; exact h (Option.some.inj e)

theorem fingerprint_propagation_witness :
    Required sampleEnv cluster (freshClient sampleEnv) ∧
    customTrustSource cluster (some proxy) (freshClient sampleEnv) = none ∧
    customTrustSource cluster (some proxy) (injectedClient sampleEnv) = none ∧
    trustedCABundleHash sampleEnv cluster
        (ReconcileKibana sampleEnv cluster (freshClient sampleEnv) (some proxy)).1
      = some (calcTrustedCAHashValue sampleEnv (kibanaCABundle sampleEnv)) ∧
    trustedCABundleHash sampleEnv cluster
        (ReconcileKibana sampleEnv cluster (injectedClient sampleEnv) (some proxy)).1
      = some (calcTrustedCAHashValue sampleEnv (injectedCABundle sampleEnv)) :=
  ⟨by decide, by decide, by decide,
    (fingerprint_propagation sampleEnv cluster (freshClient sampleEnv)
      (injectedClient sampleEnv) (some proxy) (kibanaCABundle sampleEnv)
      (injectedCABundle sampleEnv) (by decide) (by decide) rfl rfl).2.1 (by decide),
    ((fingerprint_propagation sampleEnv cluster (freshClient sampleEnv)
      (injectedClient sampleEnv) (some proxy) (kibanaCABundle sampleEnv)
      (injectedCABundle sampleEnv) (by decide) (by decide) rfl rfl).2.2.2.2
      (by decide)).1⟩

end KibanaReconciler

end K8sHandler
